import Mathlib

/-!
Verification development for the value-IR / code-generation core of the
Embedded Learning Library (ELL), shallowly embedding the operations of
`libraries/value/src/LLVMContext.cpp`.

Conventions of the embedding:
* machine scalars (every element of a constant buffer or of backend storage)
  are modelled as `Int`; backend addresses that get stored into memory are
  injected into `Int` through `Nat.pair`;
* the external `MemoryLayout` collaborator (out of scope for the spec) is
  instantiated canonically: a layout is identified by its active size and its
  offset mapping is the row-major rank with the last dimension varying
  fastest, so every layout is contiguous;
* the external LLVM emission backend is modelled by its observable semantics:
  an `Emittable` handle is a backend storage identifier together with an
  element offset and the integer contents visible through the handle;
* C++ exceptions become an `Except` error kind distinguishing
  `InputException` and `LogicException` conditions.
-/

set_option maxRecDepth 4000

namespace ell

/-- Scalar base types of the value IR (`ValueType` in the source). -/
inductive ValueType where
  | Boolean
  | Byte
  | Char8
  | Int16
  | Int32
  | Int64
  | Float
  | Double
  | Void
  | Undefined
deriving DecidableEq

/-- The base type is one of the two floating-point types. -/
def isFloatingPointType : ValueType → Bool
  | .Float => true
  | .Double => true
  | _ => false

/-- Error conditions raised by the source: the four `InputException` kinds and
the two `LogicException` kinds that appear in `LLVMContext.cpp`. -/
inductive ErrorKind where
  | inputInvalidArgument
  | inputTypeMismatch
  | inputSizeMismatch
  | inputInvalidSize
  | logicIllegalState
  | logicNotImplemented
deriving DecidableEq

/-- Canonical (contiguous, row-major) instantiation of the external
`MemoryLayout` collaborator: a layout is identified by its active size, and
physical offsets are the row-major rank with the last dimension varying
fastest. -/
structure MemoryLayout where
  activeSize : List Nat
deriving DecidableEq

/-- `MemoryLayout::GetMemorySize` in the canonical contiguous model: the
number of elements of the active region. -/
def MemoryLayout.GetMemorySize (l : MemoryLayout) : Nat := l.activeSize.prod

/-- The single-element layout used for scalars (`ScalarLayout`). -/
def ScalarLayout : MemoryLayout := ⟨[1]⟩

/-- Row-major rank of a coordinate (last dimension varies fastest). -/
def rankOf : List Nat → List Nat → Nat
  | _ :: ds, c :: cs => c * ds.prod + rankOf ds cs
  | _, _ => 0

/-- `MemoryLayout::GetEntryOffset` in the canonical contiguous model. -/
def MemoryLayout.GetEntryOffset (l : MemoryLayout) (c : List Nat) : Nat :=
  rankOf l.activeSize c

/-- `MemoryLayout::GetLogicalEntryOffset` in the canonical contiguous model
(identical to the physical offset because the model has no padding or
dimension permutation). -/
def MemoryLayout.GetLogicalEntryOffset (l : MemoryLayout) (c : List Nat) : Nat :=
  rankOf l.activeSize c

/-- `MemoryLayout::GetLogicalCoordinates` in the canonical contiguous model:
the identity on coordinates. -/
def MemoryLayout.GetLogicalCoordinates (_ : MemoryLayout) (c : List Nat) : List Nat := c

/-- `MemoryLayout::IsContiguous`: always true in the canonical model. -/
def MemoryLayout.IsContiguous (_ : MemoryLayout) : Bool := true

/-- `IncrementMemoryCoordinateImpl` from `LLVMContext.cpp`.  The C++ recursion
is over an `int` dimension counting down to `-1`; here the first argument is
`dimension + 1`, so `0` plays the role of dimension `-1`.  The C++ mutates
`coordinate` in place and returns `bool`; here the pair of the return flag
and the final vector is returned. -/
def IncrementMemoryCoordinateImpl : Nat → List Nat → List Nat → Bool × List Nat
  | 0, coordinate, _ => (false, coordinate)
  | dim + 1, coordinate, maxCoordinate =>
    let incremented := coordinate.set dim (coordinate.getD dim 0 + 1)
    if maxCoordinate.getD dim 0 ≤ coordinate.getD dim 0 + 1 then
      IncrementMemoryCoordinateImpl dim (incremented.set dim 0) maxCoordinate
    else
      (true, incremented)

/-- `IncrementMemoryCoordinate` from `LLVMContext.cpp`: start the carry at the
last dimension (`maxCoordinate.size() - 1`, i.e. first argument
`maxCoordinate.length` in the shifted encoding). -/
def IncrementMemoryCoordinate (coordinate maxCoordinate : List Nat) : Bool × List Nat :=
  IncrementMemoryCoordinateImpl maxCoordinate.length coordinate maxCoordinate

/-- One `do { visit; } while (IncrementMemoryCoordinate(...))` loop, with
explicit fuel (the C++ loop needs none; the fuel below is always sufficient).
Returns the list of coordinate vectors visited. -/
def forCoordsAux : Nat → List Nat → List Nat → List (List Nat)
  | 0, _, _ => []
  | fuel + 1, coordinate, maxCoordinate =>
    coordinate ::
      (match IncrementMemoryCoordinate coordinate maxCoordinate with
        | (true, next) => forCoordsAux fuel next maxCoordinate
        | (false, _) => [])

/-- Fuel for the do-while loop: the loop starting from the zero coordinate
visits exactly `∏ max(dᵢ, 1)` coordinates. -/
def fuelFor (maxCoordinate : List Nat) : Nat :=
  (maxCoordinate.map fun d => max d 1).prod

/-- The coordinate sequence visited by every per-element do-while loop in the
source (`ForImpl`, the binary/logical operation loops, the intrinsic loops):
start from the zero vector and increment until the first dimension
overflows. -/
def odometerCoords (maxCoordinate : List Nat) : List (List Nat) :=
  forCoordsAux (fuelFor maxCoordinate) (List.replicate maxCoordinate.length 0) maxCoordinate

/-- `LLVMContext::ForImpl`: the list of logical coordinates handed to the
callback, one per element of the layout's active region.  In the canonical
layout model `GetLogicalCoordinates` is the identity. -/
def ForImplCoords (layout : MemoryLayout) : List (List Nat) :=
  (odometerCoords layout.activeSize).map (layout.GetLogicalCoordinates)

/-- Modelled from the spec: the odometer order the specification prescribes,
"the last dimension varies fastest, carrying into earlier dimensions on
overflow" — i.e. the nested enumeration with the first dimension outermost.
This definition follows the spec's words and is compared against the
source-derived `odometerCoords`. -/
def specLastFastestEnum : List Nat → List (List Nat)
  | [] => [[]]
  | d :: rest => (List.range d).flatMap fun i => (specLastFastestEnum rest).map (i :: ·)

/-- Mixed-radix decoding of a counter value into a coordinate, last dimension
fastest; a proof device linking the odometer to the spec's enumeration. -/
def toCoord : List Nat → Nat → List Nat
  | [], _ => []
  | _ :: rest, k => (k / rest.prod) :: toCoord rest (k % rest.prod)

theorem toCoord_length (dims : List Nat) (k : Nat) : (toCoord dims k).length = dims.length := by
  induction dims generalizing k with
  | nil => rfl
  | cons d rest ih => simp [toCoord, ih]

theorem toCoord_zero (dims : List Nat) : toCoord dims 0 = List.replicate dims.length 0 := by
  induction dims with
  | nil => rfl
  | cons d rest ih => simp [toCoord, ih, List.replicate_succ]

theorem prod_pos_of_pos {l : List Nat} (h : ∀ d ∈ l, 0 < d) : 0 < l.prod := by
  induction l with
  | nil => simp
  | cons d rest ih =>
    have hd := h d (List.mem_cons_self d rest)
    have hr := ih fun x hx => h x (List.mem_cons_of_mem d hx)
    simpa [List.prod_cons] using Nat.mul_pos hd hr

/-- Peeling one dimension off the increment: incrementing `i :: c` with bounds
`m :: ms` first runs the increment of `c` against `ms`; if that carry falls
off the front, the head is incremented (and on overflow zeroed). -/
theorem IncrementMemoryCoordinateImpl_cons (j : Nat) :
    ∀ (c : List Nat) (i m : Nat) (ms : List Nat), j ≤ c.length →
    IncrementMemoryCoordinateImpl (j + 1) (i :: c) (m :: ms) =
      match IncrementMemoryCoordinateImpl j c ms with
      | (true, c') => (true, i :: c')
      | (false, c') => if m ≤ i + 1 then (false, 0 :: c') else (true, (i + 1) :: c') := by
  induction j with
  | zero =>
    intro c i m ms _
    simp only [IncrementMemoryCoordinateImpl, List.set_cons_zero, List.getD_cons_zero]
  | succ j ih =>
    intro c i m ms hj
    conv_lhs => rw [IncrementMemoryCoordinateImpl]
    conv_rhs => rw [IncrementMemoryCoordinateImpl]
    simp only [List.getD_cons_succ, List.set_cons_succ]
    by_cases hcond : ms.getD j 0 ≤ c.getD j 0 + 1
    · rw [if_pos hcond, if_pos hcond]
      exact ih ((c.set j (c.getD j 0 + 1)).set j 0) i m ms
        (by simp only [List.length_set]; omega)
    · rw [if_neg hcond, if_neg hcond]

/-- The odometer increment realises the successor of the mixed-radix counter:
from the coordinate of `k` it produces the coordinate of `k + 1`, and it
reports termination exactly when `k + 1` reaches the element count. -/
theorem IncrementMemoryCoordinate_toCoord (dims : List Nat) (hpos : ∀ d ∈ dims, 0 < d) :
    ∀ k, k < dims.prod →
    IncrementMemoryCoordinate (toCoord dims k) dims =
      if k + 1 < dims.prod then (true, toCoord dims (k + 1))
      else (false, List.replicate dims.length 0) := by
  induction dims with
  | nil =>
    intro k hk
    have hk0 : k = 0 := by simp only [List.prod_nil] at hk; omega
    subst hk0
    simp [IncrementMemoryCoordinate, IncrementMemoryCoordinateImpl, toCoord]
  | cons d rest ih =>
    intro k hk
    have hd : 0 < d := hpos d (List.mem_cons_self d rest)
    have hrest : ∀ x ∈ rest, 0 < x := fun x hx => hpos x (List.mem_cons_of_mem d hx)
    have hP : 0 < rest.prod := prod_pos_of_pos hrest
    have hkP : k % rest.prod < rest.prod := Nat.mod_lt _ hP
    have hdm : k / rest.prod < d := by
      rw [Nat.div_lt_iff_lt_mul hP]
      simpa [List.prod_cons, Nat.mul_comm] using hk
    have hsplit : rest.prod * (k / rest.prod) + k % rest.prod = k := Nat.div_add_mod k rest.prod
    have hlen : (toCoord rest (k % rest.prod)).length = rest.length := toCoord_length _ _
    have hstep : IncrementMemoryCoordinate (toCoord (d :: rest) k) (d :: rest) =
        match IncrementMemoryCoordinate (toCoord rest (k % rest.prod)) rest with
        | (true, c') => (true, k / rest.prod :: c')
        | (false, c') =>
          if d ≤ k / rest.prod + 1 then (false, 0 :: c') else (true, (k / rest.prod + 1) :: c') := by
      show IncrementMemoryCoordinateImpl (rest.length + 1)
        (k / rest.prod :: toCoord rest (k % rest.prod)) (d :: rest) = _
      rw [IncrementMemoryCoordinateImpl_cons rest.length (toCoord rest (k % rest.prod))
        (k / rest.prod) d rest (by omega)]
      rfl
    rw [hstep]
    rw [ih hrest (k % rest.prod) hkP]
    by_cases hm : k % rest.prod + 1 < rest.prod
    · -- no carry out of the inner dimensions
      have hdiv : (k + 1) / rest.prod = k / rest.prod := by
        have h1 : k + 1 = (k % rest.prod + 1) + rest.prod * (k / rest.prod) := by omega
        rw [h1, Nat.add_mul_div_left _ _ hP, Nat.div_eq_of_lt hm]
        omega
      have hmod : (k + 1) % rest.prod = k % rest.prod + 1 := by
        have h1 : k + 1 = (k % rest.prod + 1) + rest.prod * (k / rest.prod) := by omega
        rw [h1, Nat.add_mul_mod_self_left, Nat.mod_eq_of_lt hm]
      have hk1 : k + 1 < (d :: rest).prod := by
        have h2 : k + 1 < rest.prod * (k / rest.prod + 1) := by
          rw [Nat.mul_succ]; omega
        have h3 : rest.prod * (k / rest.prod + 1) ≤ rest.prod * d :=
          Nat.mul_le_mul_left _ hdm
        simp only [List.prod_cons]
        calc k + 1 < rest.prod * (k / rest.prod + 1) := h2
          _ ≤ rest.prod * d := h3
          _ = d * rest.prod := Nat.mul_comm _ _
      rw [if_pos hm, if_pos hk1]
      simp [toCoord, hdiv, hmod]
    · -- the inner dimensions roll over
      have hm' : k % rest.prod + 1 = rest.prod := by omega
      have hk1eq : k + 1 = rest.prod * (k / rest.prod + 1) := by
        rw [Nat.mul_succ]; omega
      have hdiv : (k + 1) / rest.prod = k / rest.prod + 1 := by
        rw [hk1eq, Nat.mul_div_cancel_left _ hP]
      have hmod : (k + 1) % rest.prod = 0 := by
        rw [hk1eq, Nat.mul_mod_right]
      rw [if_neg hm]
      by_cases hfull : d ≤ k / rest.prod + 1
      · have hk1 : ¬ (k + 1 < (d :: rest).prod) := by
          have h4 : rest.prod * d ≤ rest.prod * (k / rest.prod + 1) :=
            Nat.mul_le_mul_left _ hfull
          simp only [List.prod_cons]
          rw [hk1eq, Nat.mul_comm d rest.prod]
          omega
        simp only [List.prod_cons] at hk1
        simp [hfull, hk1, List.replicate_succ]
      · have hk1 : k + 1 < (d :: rest).prod := by
          have h4 : rest.prod * (k / rest.prod + 1) < rest.prod * d :=
            Nat.mul_lt_mul_of_pos_left (by omega) hP
          simp only [List.prod_cons]
          rw [hk1eq, Nat.mul_comm d rest.prod]
          exact h4
        simp only [List.prod_cons] at hk1
        simp [hfull, hk1, toCoord, hdiv, hmod, toCoord_zero]

/-- The do-while loop, started at the coordinate of counter value `k`, visits
exactly the coordinates of `k, k+1, ..., prod-1` (given sufficient fuel). -/
theorem forCoordsAux_eq_range' (dims : List Nat) (hpos : ∀ d ∈ dims, 0 < d) :
    ∀ (fuel k : Nat), k < dims.prod → dims.prod - k ≤ fuel →
    forCoordsAux fuel (toCoord dims k) dims =
      (List.range' k (dims.prod - k)).map (toCoord dims) := by
  intro fuel
  induction fuel with
  | zero => intro k hk hf; omega
  | succ fuel ih =>
    intro k hk hf
    rw [forCoordsAux]
    rw [IncrementMemoryCoordinate_toCoord dims hpos k hk]
    by_cases hk1 : k + 1 < dims.prod
    · rw [if_pos hk1]
      show toCoord dims k :: forCoordsAux fuel (toCoord dims (k + 1)) dims = _
      rw [ih (k + 1) hk1 (by omega)]
      have hsz : dims.prod - k = (dims.prod - (k + 1)) + 1 := by omega
      rw [hsz, List.range'_succ, List.map_cons]
    · rw [if_neg hk1]
      have hsz : dims.prod - k = 1 := by omega
      rw [hsz, List.range'_succ]
      simp


theorem fuelFor_eq_prod {dims : List Nat} (hpos : ∀ d ∈ dims, 0 < d) :
    fuelFor dims = dims.prod := by
  unfold fuelFor
  induction dims with
  | nil => rfl
  | cons d rest ih =>
    have hd : 0 < d := hpos d (List.mem_cons_self d rest)
    have hrest : ∀ x ∈ rest, 0 < x := fun x hx => hpos x (List.mem_cons_of_mem d hx)
    simp only [List.map_cons, List.prod_cons, ih hrest]
    congr 1
    omega

theorem odometerCoords_eq_toCoordRange {dims : List Nat} (hpos : ∀ d ∈ dims, 0 < d) :
    odometerCoords dims = (List.range dims.prod).map (toCoord dims) := by
  unfold odometerCoords
  rw [← toCoord_zero dims, fuelFor_eq_prod hpos]
  rw [forCoordsAux_eq_range' dims hpos dims.prod 0 (prod_pos_of_pos hpos) (by omega)]
  rw [List.range_eq_range']
  simp

theorem toCoord_cons (d : Nat) (rest : List Nat) (k : Nat) :
    toCoord (d :: rest) k = (k / rest.prod) :: toCoord rest (k % rest.prod) := rfl

theorem range_mul_map_toCoord (rest : List Nat) :
    ∀ d : Nat,
      (List.range (d * rest.prod)).map (fun k => (k / rest.prod) :: toCoord rest (k % rest.prod)) =
      (List.range d).flatMap fun i =>
        ((List.range rest.prod).map (toCoord rest)).map (i :: ·) := by
  intro d
  induction d with
  | zero => simp
  | succ d ih =>
    have hadd : (d + 1) * rest.prod = d * rest.prod + rest.prod := by ring
    rw [hadd, List.range_add, List.map_append, ih, List.range_succ, List.flatMap_append]
    congr 1
    · rw [List.map_map]
      have hpt : ∀ j ∈ List.range rest.prod,
          ((d * rest.prod + j) / rest.prod) :: toCoord rest ((d * rest.prod + j) % rest.prod) =
            d :: toCoord rest j := by
        intro j hj
        have hjlt : j < rest.prod := List.mem_range.mp hj
        have hP : 0 < rest.prod := by omega
        have h1 : d * rest.prod + j = j + rest.prod * d := by ring
        have hdiv : (d * rest.prod + j) / rest.prod = d := by
          rw [h1, Nat.add_mul_div_left _ _ hP, Nat.div_eq_of_lt hjlt]
          omega
        have hmod : (d * rest.prod + j) % rest.prod = j := by
          rw [h1, Nat.add_mul_mod_self_left, Nat.mod_eq_of_lt hjlt]
        rw [hdiv, hmod]
      calc (List.range rest.prod).map
            ((fun k => (k / rest.prod) :: toCoord rest (k % rest.prod)) ∘ (fun x => d * rest.prod + x))
          = (List.range rest.prod).map (fun j => d :: toCoord rest j) :=
            List.map_congr_left hpt
        _ = ((List.range rest.prod).map (toCoord rest)).map (d :: ·) := by
            rw [List.map_map]; rfl
        _ = [d].flatMap fun i => ((List.range rest.prod).map (toCoord rest)).map (i :: ·) := by
            simp

theorem specLastFastestEnum_eq_toCoordRange {dims : List Nat} (hpos : ∀ d ∈ dims, 0 < d) :
    specLastFastestEnum dims = (List.range dims.prod).map (toCoord dims) := by
  induction dims with
  | nil => simp [specLastFastestEnum, toCoord]
  | cons d rest ih =>
    have hrest : ∀ x ∈ rest, 0 < x := fun x hx => hpos x (List.mem_cons_of_mem d hx)
    have hcongr : (List.range (d * rest.prod)).map (toCoord (d :: rest)) =
        (List.range (d * rest.prod)).map
          (fun k => (k / rest.prod) :: toCoord rest (k % rest.prod)) :=
      List.map_congr_left fun k _ => toCoord_cons d rest k
    rw [specLastFastestEnum, ih hrest, List.prod_cons, hcongr, range_mul_map_toCoord rest d]

/-- Shared bridge: the coordinate sequence produced by the source's odometer
loop is exactly the enumeration the spec prescribes (first dimension
outermost, last dimension fastest), for any layout with positive extents. -/
theorem odometerCoords_eq_specEnum {dims : List Nat} (hpos : ∀ d ∈ dims, 0 < d) :
    odometerCoords dims = specLastFastestEnum dims :=
  (odometerCoords_eq_toCoordRange hpos).trans (specLastFastestEnum_eq_toCoordRange hpos).symm

/-- A constant buffer owned by the interpreting `ComputeContext`.  The `id`
field models the buffer's identity (its address in the C++): two buffers with
equal contents but different `id` are distinct objects, which is what the
promotion bookkeeping compares. -/
structure ConstBuf where
  id : Nat
  data : List Int
deriving DecidableEq

/-- The underlying-data variant of a `Value` (spec §3): `Undefined`, a typed
pointer into a constant buffer (buffer plus element offset), or an opaque
`Emittable` backend handle.  An emittable handle is modelled by the backend
storage identifier, the element offset of the handle within that storage, and
the integer contents visible through the handle (index `0` is the element the
handle points at). -/
inductive UnderlyingData where
  | undefined : UnderlyingData
  | constant : ConstBuf → Nat → UnderlyingData
  | emittable : Nat → Nat → List Int → UnderlyingData
deriving DecidableEq

/-- The central `Value` entity: base type, pointer level, layout (with an
`IsConstrained` flag — an unconstrained Value has no layout of its own), and
the underlying-data variant. -/
structure Value where
  baseType : ValueType
  pointerLevel : Nat
  layout : MemoryLayout
  constrained : Bool
  data : UnderlyingData
deriving DecidableEq

/-- `Value::IsDefined` (spec §3 derived predicate): the data variant is not
`Undefined`. -/
def Value.IsDefined (v : Value) : Bool :=
  match v.data with
  | .undefined => false
  | _ => true

/-- `Value::IsConstant`: the data variant is a constant-buffer pointer. -/
def Value.IsConstant (v : Value) : Bool :=
  match v.data with
  | .constant _ _ => true
  | _ => false

/-- `Value::IsEmpty` (spec §3 derived predicate): the layout has zero
elements. -/
def Value.IsEmpty (v : Value) : Bool :=
  v.constrained && decide (v.layout.GetMemorySize = 0)

/-- `Value::IsConstrained`. -/
def Value.IsConstrained (v : Value) : Bool := v.constrained

/-- `Value::IsFloatingPoint` (spec §3 derived predicate; `Value.cpp` is not
part of the visible source, so this follows the spec: the base type is a
floating-point type).  The source always combines it with
`IsFloatingPointPointer`, so the pointer level is not consulted here. -/
def Value.IsFloatingPointOrPointer (v : Value) : Bool :=
  isFloatingPointType v.baseType

/-- `Value::GetLayout`. -/
def Value.GetLayout (v : Value) : MemoryLayout := v.layout

/-- Modelled from the spec: `Value::Reset` reassigns the underlying-data
variant to `Undefined` and never touches the layout (`Value.cpp` is not part
of the visible source). -/
def Value.Reset (v : Value) : Value := { v with data := .undefined }

/-- The backend storage handle of an emittable value, if any. -/
def Value.emittableStorage (v : Value) : Option Nat :=
  match v.data with
  | .emittable storage _ _ => some storage
  | _ => none

/-- The element offset of an emittable value's handle within its backend
storage, if any. -/
def Value.emittableOffset (v : Value) : Option Nat :=
  match v.data with
  | .emittable _ off _ => some off
  | _ => none

/-- The integer read through a value's handle at element offset `o`: a
constant reads its backing buffer at the value's own offset plus `o`
(pointer indexing `data[o]` in the source); an emittable handle reads the
backend storage it points into (`ValueAt(handle, o)`). -/
def Value.elemAt (v : Value) (o : Nat) : Int :=
  match v.data with
  | .undefined => 0
  | .constant buf off => buf.data.getD (off + o) 0
  | .emittable _ _ contents => contents.getD o 0

/-- `LLVMContext::TypeCompatible`: same base type. -/
def TypeCompatible (value1 value2 : Value) : Bool :=
  decide (value1.baseType = value2.baseType)

/-- `FunctionDeclaration`: name, ordered parameter type descriptions and
optional return type description; equality is componentwise (spec §3). -/
structure FunctionDeclaration where
  name : String
  parameterTypes : List (ValueType × Nat)
  returnType : Option (ValueType × Nat)
deriving DecidableEq

/-- Modelled from the spec: the fixed catalog of built-in intrinsic
declarations {abs, cos, exp, log, max, min, pow, sin, sqrt, tanh}
(`FunctionDeclaration.h` is not part of the visible source; only the names
matter to the visible code, which compares whole declarations). -/
def AbsFunctionDeclaration : FunctionDeclaration := ⟨"abs", [], none⟩

/-- Modelled from the spec: see `AbsFunctionDeclaration`. -/
def CosFunctionDeclaration : FunctionDeclaration := ⟨"cos", [], none⟩

/-- Modelled from the spec: see `AbsFunctionDeclaration`. -/
def ExpFunctionDeclaration : FunctionDeclaration := ⟨"exp", [], none⟩

/-- Modelled from the spec: see `AbsFunctionDeclaration`. -/
def LogFunctionDeclaration : FunctionDeclaration := ⟨"log", [], none⟩

/-- Modelled from the spec: see `AbsFunctionDeclaration`. -/
def MaxNumFunctionDeclaration : FunctionDeclaration := ⟨"max", [], none⟩

/-- Modelled from the spec: see `AbsFunctionDeclaration`. -/
def MinNumFunctionDeclaration : FunctionDeclaration := ⟨"min", [], none⟩

/-- Modelled from the spec: see `AbsFunctionDeclaration`. -/
def PowFunctionDeclaration : FunctionDeclaration := ⟨"pow", [], none⟩

/-- Modelled from the spec: see `AbsFunctionDeclaration`. -/
def SinFunctionDeclaration : FunctionDeclaration := ⟨"sin", [], none⟩

/-- Modelled from the spec: see `AbsFunctionDeclaration`. -/
def SqrtFunctionDeclaration : FunctionDeclaration := ⟨"sqrt", [], none⟩

/-- Modelled from the spec: see `AbsFunctionDeclaration`. -/
def TanhFunctionDeclaration : FunctionDeclaration := ⟨"tanh", [], none⟩

/-- Modelled from the spec: `GetIntrinsics()`, the list of built-in intrinsic
declarations. -/
def GetIntrinsics : List FunctionDeclaration :=
  [AbsFunctionDeclaration, CosFunctionDeclaration, ExpFunctionDeclaration,
   LogFunctionDeclaration, MaxNumFunctionDeclaration, MinNumFunctionDeclaration,
   PowFunctionDeclaration, SinFunctionDeclaration, SqrtFunctionDeclaration,
   TanhFunctionDeclaration]

/-- The mutable state of one `LLVMContext` instance: nested function-emission
scopes (top of stack first), the per-scope promoted-constant records (one
frame per scope, top first; each record pairs the identity of a constant
buffer with the backend storage it was materialised into), a counter of
backend storage handles, the global registry (scope-qualified name to
handle and layout), and the defined-function cache. -/
structure ContextState where
  moduleName : String
  functionStack : List String
  promotedConstantStack : List (List (Nat × Nat))
  nextStorage : Nat
  globals : List (String × Nat × MemoryLayout)
  definedFunctions : List (FunctionDeclaration × Nat)
  nextFnId : Nat

/-- The scope kind of a global allocation. -/
inductive GlobalAllocationScope where
  | Global
  | Function
deriving DecidableEq

/-- `LLVMContext::GetGlobalScopedName`: `<module>_<name>`. -/
def GetGlobalScopedName (st : ContextState) (name : String) : String :=
  st.moduleName ++ "_" ++ name

/-- `LLVMContext::GetCurrentFunctionScopedName`: fails when no function scope
is active, otherwise `<module>_<function>_<name>`. -/
def GetCurrentFunctionScopedName (st : ContextState) (name : String) : Except ErrorKind String :=
  match st.functionStack with
  | [] => .error .logicIllegalState
  | fnName :: _ => .ok (GetGlobalScopedName st (fnName ++ "_" ++ name))

/-- `LLVMContext::GetScopeAdjustedName`. -/
def GetScopeAdjustedName (st : ContextState) (scope : GlobalAllocationScope) (name : String) :
    Except ErrorKind String :=
  match scope with
  | .Global => .ok (GetGlobalScopedName st name)
  | .Function => GetCurrentFunctionScopedName st name

/-- Modelled from the spec: `ComputeContext::GetConstantData` returns the full
backing constant buffer of a constant `Value` (`ComputeContext.cpp` is not
part of the visible source); the buffer's identity (`id`) models the address
compared by the promotion bookkeeping. -/
def GetConstantData (v : Value) : Option ConstBuf :=
  match v.data with
  | .constant buf _ => some buf
  | _ => none

/-- `LLVMContext::PromoteConstantData`: materialise a constant buffer into
fresh backend storage — a module-level global when no function scope is
active, otherwise a function-local variable initialised by copying from a
global — record the pair (buffer identity, storage) on the top frame of the
promoted-constant stack, and return the value rebound to a pointer into that
storage at the value's own offset within its backing buffer
(`offset = ptrData - data.data()`). -/
def PromoteConstantData (st : ContextState) (v : Value) : Value × ContextState :=
  match v.data with
  | .constant buf off =>
    let storage := st.nextStorage
    let newTop := (st.promotedConstantStack.headD []) ++ [(buf.id, storage)]
    let st' : ContextState :=
      { st with
        promotedConstantStack := newTop :: st.promotedConstantStack.tail,
        nextStorage := storage + 1 }
    if st.functionStack.isEmpty then
      -- module scope: the storage is an initialised backend global
      ({ v with data := .emittable storage off (buf.data.drop off) }, st')
    else
      -- function scope: the storage is a function-local variable filled by
      -- MemoryCopy from an initialised global
      ({ v with data := .emittable storage off (buf.data.drop off) }, st')
  | _ => (v, st)

/-- `LLVMContext::HasBeenPromoted`: `none` for undefined, empty or
non-constant values; otherwise look the value's backing buffer up in the top
frame of the promoted-constant stack by buffer identity. -/
def HasBeenPromoted (st : ContextState) (v : Value) : Option (Nat × Nat) :=
  if ¬ v.IsDefined ∨ v.IsEmpty ∨ ¬ v.IsConstant then none
  else
    match v.data with
    | .constant buf _ => (st.promotedConstantStack.headD []).find? (fun r => decide (r.1 = buf.id))
    | _ => none

/-- `LLVMContext::Realize`: if the value's buffer has already been promoted in
the current function scope, rebind the value to a pointer into the recorded
backend storage at the value's own offset within the buffer; otherwise return
the value unchanged. -/
def Realize (st : ContextState) (v : Value) : Value :=
  match HasBeenPromoted st v with
  | none => v
  | some record =>
    match v.data with
    | .constant buf off => { v with data := .emittable record.2 off (buf.data.drop off) }
    | _ => v

/-- `LLVMContext::EnsureEmittable`: non-constant values pass through; a
constant value is first `Realize`d (reusing recorded storage) and only
promoted to fresh storage when no promotion record exists. -/
def EnsureEmittable (st : ContextState) (v : Value) : Value × ContextState :=
  if ¬ v.IsConstant then (v, st)
  else
    let newValue := Realize st v
    if ¬ newValue.IsConstant then (newValue, st)
    else PromoteConstantData st newValue

/-- `LLVMContext::GlobalAllocateImpl` (type/layout overload): scope-qualify
the name, fail on a collision in the global registry, otherwise create an
uninitialised backend global and register it.  The returned value points at
element 0 of the global (`PointerOffset(global, 0)`), hence pointer level
1. -/
def GlobalAllocateImplType (st : ContextState) (scope : GlobalAllocationScope) (name : String)
    (type : ValueType) (layout : MemoryLayout) : Except ErrorKind (ContextState × Value) := do
  let adjustedName ← GetScopeAdjustedName st scope name
  if (st.globals.find? (fun g => decide (g.1 = adjustedName))).isSome then
    throw .inputInvalidArgument
  else
    let handle := st.nextStorage
    let st' : ContextState :=
      { st with
        globals := st.globals ++ [(adjustedName, handle, layout)],
        nextStorage := handle + 1 }
    let v : Value :=
      { baseType := type, pointerLevel := 1, layout := layout, constrained := true,
        data := .emittable handle 0 (List.replicate layout.GetMemorySize 0) }
    return (st', v)

/-- `LLVMContext::GlobalAllocateImpl` (constant-data overload): identical
registration logic, but the backend global is initialised with the given
data (a boolean vector is stored as 8-bit elements, which does not change
the integer contents in this model). -/
def GlobalAllocateImplData (st : ContextState) (scope : GlobalAllocationScope) (name : String)
    (type : ValueType) (data : List Int) (layout : MemoryLayout) :
    Except ErrorKind (ContextState × Value) := do
  let adjustedName ← GetScopeAdjustedName st scope name
  if (st.globals.find? (fun g => decide (g.1 = adjustedName))).isSome then
    throw .inputInvalidArgument
  else
    let handle := st.nextStorage
    let st' : ContextState :=
      { st with
        globals := st.globals ++ [(adjustedName, handle, layout)],
        nextStorage := handle + 1 }
    let v : Value :=
      { baseType := type, pointerLevel := 1, layout := layout, constrained := true,
        data := .emittable handle 0 data }
    return (st', v)

/-- `LLVMContext::CreateFunctionImpl`.  Order of the source: (1) reject
declarations equal to a built-in intrinsic; (2) return the cached callable if
the declaration is already in the defined-function map; (3) otherwise open a
`FunctionScope` (pushing a function-emission scope and a fresh
promoted-constant frame, both popped on exit), invoke the body callback once,
and cache the resulting callable.  Cached callables are identified by `Nat`
ids; the returned `Bool` reports whether the body callback was invoked by
this call. -/
def CreateFunctionImpl (st : ContextState) (decl : FunctionDeclaration) :
    Except ErrorKind (ContextState × Nat × Bool) :=
  if decl ∈ GetIntrinsics then
    .error .inputInvalidArgument
  else
    match st.definedFunctions.find? (fun p => decide (p.1 = decl)) with
    | some cached => .ok (st, cached.2, false)
    | none =>
      let fnId := st.nextFnId
      .ok ({ st with
              definedFunctions := st.definedFunctions ++ [(decl, fnId)],
              nextFnId := fnId + 1 },
           fnId, true)

/-- `LLVMContext::IsFunctionDefinedImpl`: true for a built-in intrinsic
declaration, otherwise membership in the defined-function cache. -/
def IsFunctionDefinedImpl (st : ContextState) (decl : FunctionDeclaration) : Bool :=
  if decl ∈ GetIntrinsics then true
  else (st.definedFunctions.find? (fun p => decide (p.1 = decl))).isSome

/-- The backend's typed comparison opcodes used by the source (the relevant
subset of `emitters::TypedComparison`). -/
inductive TypedComparison where
  | equals
  | equalsFloat
  | notEquals
  | notEqualsFloat
  | greaterThan
  | greaterThanFloat
  | greaterThanOrEquals
  | greaterThanOrEqualsFloat
  | lessThan
  | lessThanFloat
  | lessThanOrEquals
  | lessThanOrEqualsFloat
deriving DecidableEq

/-- The six logical (comparison) operations of the protocol. -/
inductive ValueLogicalOperation where
  | equality
  | inequality
  | greaterthan
  | greaterthanorequal
  | lessthan
  | lessthanorequal
deriving DecidableEq

/-- The comparison-opcode selection switch of
`LLVMContext::LogicalOperationImpl`: float opcodes for floating-point
operands, signed integer opcodes otherwise. -/
def selectComparison (op : ValueLogicalOperation) (isFp : Bool) : TypedComparison :=
  match op with
  | .equality => if isFp then .equalsFloat else .equals
  | .inequality => if isFp then .notEqualsFloat else .notEquals
  | .greaterthan => if isFp then .greaterThanFloat else .greaterThan
  | .greaterthanorequal => if isFp then .greaterThanOrEqualsFloat else .greaterThanOrEquals
  | .lessthan => if isFp then .lessThanFloat else .lessThan
  | .lessthanorequal => if isFp then .lessThanOrEqualsFloat else .lessThanOrEquals

/-- Semantics of the backend comparison opcodes on the model's integer
element domain (the float opcodes coincide with the integer ones there). -/
def TypedComparison.sem : TypedComparison → Int → Int → Bool
  | .equals, a, b => decide (a = b)
  | .equalsFloat, a, b => decide (a = b)
  | .notEquals, a, b => decide (a ≠ b)
  | .notEqualsFloat, a, b => decide (a ≠ b)
  | .greaterThan, a, b => decide (a > b)
  | .greaterThanFloat, a, b => decide (a > b)
  | .greaterThanOrEquals, a, b => decide (a ≥ b)
  | .greaterThanOrEqualsFloat, a, b => decide (a ≥ b)
  | .lessThan, a, b => decide (a < b)
  | .lessThanFloat, a, b => decide (a < b)
  | .lessThanOrEquals, a, b => decide (a ≤ b)
  | .lessThanOrEqualsFloat, a, b => decide (a ≤ b)

/-- The per-operation comparison meaning, independent of the float/integer
opcode split (which is semantically irrelevant on the model domain). -/
def logicalOpMeaning : ValueLogicalOperation → Int → Int → Bool
  | .equality, a, b => decide (a = b)
  | .inequality, a, b => decide (a ≠ b)
  | .greaterthan, a, b => decide (a > b)
  | .greaterthanorequal, a, b => decide (a ≥ b)
  | .lessthan, a, b => decide (a < b)
  | .lessthanorequal, a, b => decide (a ≤ b)

theorem selectComparison_sem (op : ValueLogicalOperation) (isFp : Bool) (a b : Int) :
    (selectComparison op isFp).sem a b = logicalOpMeaning op a b := by
  cases op <;> cases isFp <;> rfl

/-- The AND-accumulation loop shared by all branches of
`LLVMContext::LogicalOperationImpl`: starting from `TrueBit`, fold the
per-coordinate comparison of the two operands (each side read through its own
layout's logical entry offset) over the odometer sequence of `source1`'s
active size. -/
def logicalFold (cmp : TypedComparison) (source1 source2 : Value) : Bool :=
  (odometerCoords source1.GetLayout.activeSize).foldl
    (fun result c =>
      result &&
        cmp.sem
          (source1.elemAt (source1.GetLayout.GetLogicalEntryOffset
            (source1.GetLayout.GetLogicalCoordinates c)))
          (source2.elemAt (source2.GetLayout.GetLogicalEntryOffset
            (source1.GetLayout.GetLogicalCoordinates c))))
    true

/-- Modelled from the spec: `ComputeContext::LogicalOperation`
(`ComputeContext.cpp` is not part of the visible source) — the boolean scalar
that is the logical AND, across every coordinate of the equal-shaped
operands, of the per-element comparison, iterated in the §4.4 order. -/
def computeLogicalOperation (op : ValueLogicalOperation) (source1 source2 : Value) :
    Except ErrorKind (MemoryLayout × Bool) :=
  .ok (ScalarLayout, logicalFold (selectComparison op source1.IsFloatingPointOrPointer) source1 source2)

/-- `LLVMContext::LogicalOperationImpl`.  Result: the layout of the returned
scalar `Value` (always `ScalarLayout`) together with the boolean the emitted
`i1` result evaluates to.  Order of the source: (1) unequal layouts fail with
`sizeMismatch`; (2) two constant operands are delegated to the interpreting
backend; (3) otherwise the comparison opcode is selected from `source1`'s
floating-point-ness and the AND-accumulation loop is emitted; an undefined
operand on either side is an illegal state. -/
def LogicalOperationImpl (op : ValueLogicalOperation) (source1 source2 : Value) :
    Except ErrorKind (MemoryLayout × Bool) :=
  if source1.GetLayout ≠ source2.GetLayout then
    .error .inputSizeMismatch
  else if source1.IsConstant && source2.IsConstant then
    computeLogicalOperation op source1 source2
  else
    let comparisonOp := selectComparison op source1.IsFloatingPointOrPointer
    match source1.data, source2.data with
    | .undefined, _ => .error .logicIllegalState
    | _, .undefined => .error .logicIllegalState
    | _, _ => .ok (ScalarLayout, logicalFold comparisonOp source1 source2)

/-- The backend's typed arithmetic opcodes selected by
`LLVMContext::BinaryOperationImpl` (the relevant subset of
`emitters::TypedOperator`). -/
inductive TypedOperator where
  | add
  | addFloat
  | subtract
  | subtractFloat
  | multiply
  | multiplyFloat
  | divideSigned
  | divideFloat
  | moduloSigned
deriving DecidableEq

/-- The five binary operations of the protocol. -/
inductive ValueBinaryOperation where
  | add
  | subtract
  | multiply
  | divide
  | modulus
deriving DecidableEq

/-- The opcode selection switch of `LLVMContext::BinaryOperationImpl`:
float variants when the destination is floating point, signed variants for
division and modulus otherwise; modulus on floating-point operands is
rejected with `invalidArgument`. -/
def selectBinaryOperator (op : ValueBinaryOperation) (isFp : Bool) :
    Except ErrorKind TypedOperator :=
  match op with
  | .add => .ok (if isFp then .addFloat else .add)
  | .subtract => .ok (if isFp then .subtractFloat else .subtract)
  | .multiply => .ok (if isFp then .multiplyFloat else .multiply)
  | .divide => .ok (if isFp then .divideFloat else .divideSigned)
  | .modulus => if isFp then .error .inputInvalidArgument else .ok .moduloSigned

/-- Semantics of the backend arithmetic opcodes on the model's integer
element domain; the signed opcodes truncate toward zero as LLVM's
`sdiv`/`srem` do. -/
def TypedOperator.sem : TypedOperator → Int → Int → Int
  | .add, a, b => a + b
  | .addFloat, a, b => a + b
  | .subtract, a, b => a - b
  | .subtractFloat, a, b => a - b
  | .multiply, a, b => a * b
  | .multiplyFloat, a, b => a * b
  | .divideSigned, a, b => a.tdiv b
  | .divideFloat, a, b => a.tdiv b
  | .moduloSigned, a, b => a.tmod b

/-- `LLVMContext::AllocateImpl`: a fresh function-local backend variable of
the layout's memory size, zero-filled byte-by-byte (`MemorySet`), wrapped as
an emittable `Value` of the given layout. -/
def AllocateImpl (st : ContextState) (type : ValueType) (layout : MemoryLayout) :
    Value × ContextState :=
  let handle := st.nextStorage
  ({ baseType := type, pointerLevel := 1, layout := layout, constrained := true,
     data := .emittable handle 0 (List.replicate layout.GetMemorySize 0) },
   { st with nextStorage := handle + 1 })

/-- Modelled from the spec: `ComputeContext::BinaryOperation` on two constant
operands (`ComputeContext.cpp` is not part of the visible source) — checks
type and layout compatibility, then computes the per-element result into the
destination's buffer in the §4.4 order. -/
def computeBinaryOperation (op : ValueBinaryOperation) (destination source : Value) :
    Except ErrorKind Value := do
  if ¬ TypeCompatible destination source then throw .inputTypeMismatch
  if destination.GetLayout ≠ source.GetLayout then throw .inputSizeMismatch
  let typedOp ← selectBinaryOperator op destination.IsFloatingPointOrPointer
  match destination.data with
  | .constant dbuf doff =>
    let layout := destination.GetLayout
    let newData :=
      (odometerCoords layout.activeSize).foldl
        (fun acc c =>
          let o := layout.GetEntryOffset c
          acc.set (doff + o) (typedOp.sem (acc.getD (doff + o) 0) (source.elemAt o)))
        dbuf.data
    return { destination with data := .constant { dbuf with data := newData } doff }
  | _ => throw .logicIllegalState

/-- The result of a `BinaryOperation`: constant-folded through the
interpreting backend, a no-op (undefined source variant, unreachable), or a
per-coordinate loop emitted with the selected opcode. -/
inductive BinResult where
  | folded : Value → BinResult
  | skipped : Value → BinResult
  | emitted : TypedOperator → Value → BinResult
deriving DecidableEq

/-- The backend opcode a `BinaryOperation` call emitted, if any. -/
def emittedOperator : Except ErrorKind (ContextState × BinResult) → Option TypedOperator
  | .ok (_, .emitted typedOp _) => some typedOp
  | _ => none

/-- `LLVMContext::BinaryOperationImpl`.  Order of the source: (1) an undefined
source fails with `invalidArgument`; (2) two constant operands (with a
defined destination) are folded through the interpreting backend; (3) an
undefined destination is allocated from the source's type and layout; (4)
incompatible base types fail with `typeMismatch`, unequal layouts with
`sizeMismatch`; (5) the destination is made emittable, the opcode is selected
(modulus on floating point rejected), and the per-coordinate read-modify-
write loop is emitted over the destination layout's odometer sequence; a
constant boolean source is not implemented. -/
def BinaryOperationImpl (st : ContextState) (op : ValueBinaryOperation)
    (destination source : Value) : Except ErrorKind (ContextState × BinResult) := do
  if ¬ source.IsDefined then throw .inputInvalidArgument
  if destination.IsDefined && source.IsConstant && destination.IsConstant then
    let folded ← computeBinaryOperation op destination source
    return (st, .folded folded)
  let (destination, st) :=
    if destination.IsDefined then (destination, st)
    else AllocateImpl st source.baseType source.GetLayout
  if ¬ TypeCompatible destination source then throw .inputTypeMismatch
  if destination.GetLayout ≠ source.GetLayout then throw .inputSizeMismatch
  let (destination, st) := EnsureEmittable st destination
  match source.data with
  | .undefined => return (st, .skipped destination)
  | _ =>
    if source.IsConstant && decide (source.baseType = .Boolean) then
      throw .logicNotImplemented
    else
      let isFp := destination.IsFloatingPointOrPointer
      let typedOp ← selectBinaryOperator op isFp
      match destination.data with
      | .emittable handle off contents =>
        let layout := destination.GetLayout
        let newContents :=
          (odometerCoords layout.activeSize).foldl
            (fun acc c =>
              let o := layout.GetEntryOffset c
              acc.set o (typedOp.sem (acc.getD o 0) (source.elemAt o)))
            contents
        return (st, .emitted typedOp { destination with data := .emittable handle off newContents })
      | _ => throw .logicIllegalState

/-- Modelled from the spec: `ComputeContext::CopyData` for two constant
operands (`ComputeContext.cpp` is not part of the visible source) — copy the
source's active data into the destination's buffer. -/
def computeCopyData (source destination : Value) : Except ErrorKind Value :=
  match destination.data with
  | .constant dbuf doff =>
    let layout := source.GetLayout
    let newData :=
      (odometerCoords layout.activeSize).foldl
        (fun acc c =>
          let o := layout.GetEntryOffset c
          acc.set (doff + o) (source.elemAt o))
        dbuf.data
    .ok { destination with data := .constant { dbuf with data := newData } doff }
  | _ => .error .logicIllegalState

/-- A backend address stored into memory by the single dereferencing store of
the copy path, injected into the integer element domain. -/
def addressAsInt (storage off : Nat) : Int := Int.ofNat (Nat.pair storage off)

/-- `LLVMContext::CopyDataImpl`, returning the updated destination value.
A constant destination requires a constant source (delegated to the
interpreting backend; otherwise illegal state).  For a non-constant
destination the source's guard is transcribed verbatim: it throws
`typeMismatch` when the base types are NOT compatible AND the destination's
pointer level equals the source's or exceeds it by one.  Then: a constant
source is copied by per-coordinate literal stores over its active region; an
emittable source equal to the destination handle is a no-op; a contiguous
layout is bulk-copied when the pointer levels match and otherwise copied by a
single dereferencing store of the source address; a non-contiguous layout
(never produced by the canonical layout model) is copied per-coordinate. -/
def CopyDataImpl (source destination : Value) : Except ErrorKind Value :=
  if destination.IsConstant then
    if source.IsConstant then computeCopyData source destination
    else .error .logicIllegalState
  else
    if ¬ TypeCompatible destination source ∧
        (destination.pointerLevel = source.pointerLevel ∨
         destination.pointerLevel = 1 + source.pointerLevel) then
      .error .inputTypeMismatch
    else
      match destination.data with
      | .emittable dHandle dOff dContents =>
        match source.data with
        | .undefined => .ok destination
        | .constant buf off =>
          -- per-coordinate stores of literals from the source buffer
          let layout := source.GetLayout
          let newContents :=
            (odometerCoords layout.activeSize).foldl
              (fun acc c =>
                let o := layout.GetEntryOffset c
                acc.set o (buf.data.getD (off + o) 0))
              dContents
          .ok { destination with data := .emittable dHandle dOff newContents }
        | .emittable sHandle sOff sContents =>
          if sHandle = dHandle ∧ sOff = dOff then .ok destination
          else
            let layout := source.GetLayout
            if layout.IsContiguous then
              if destination.pointerLevel = source.pointerLevel then
                -- MemoryCopy of the layout's full memory size
                let n := layout.GetMemorySize
                let newContents := sContents.take n ++ dContents.drop n
                .ok { destination with data := .emittable dHandle dOff newContents }
              else
                -- single dereferencing store of the source address
                .ok { destination with
                        data := .emittable dHandle dOff
                          (dContents.set 0 (addressAsInt sHandle sOff)) }
            else
              let newContents :=
                (odometerCoords layout.activeSize).foldl
                  (fun acc c =>
                    let o := layout.GetEntryOffset c
                    acc.set o (sContents.getD o 0))
                  dContents
              .ok { destination with data := .emittable dHandle dOff newContents }
      | _ => .error .logicIllegalState

/-- `LLVMContext::MoveDataImpl`: a move is a copy followed by clearing the
source (`source.Reset()`); returns the cleared source and the updated
destination. -/
def MoveDataImpl (source destination : Value) : Except ErrorKind (Value × Value) :=
  match CopyDataImpl source destination with
  | .ok destination' => .ok (source.Reset, destination')
  | .error e => .error e

/-- The two floating-point widths of the backend's math-runtime function
table (`VariableType::Float` / `VariableType::Double`). -/
inductive FloatWidth where
  | float
  | double
deriving DecidableEq

/-- The type at which an intrinsic argument element reaches the runtime call:
floating-point elements are passed unchanged, every other element is passed
through `CastValue<double>`. -/
def arrivalType (t : ValueType) : ValueType :=
  if isFloatingPointType t then t else .Double

/-- What one intrinsic lowering emitted: the runtime-function variant that
was fetched, the types at which the arguments reach the call, and the
freshly allocated result value. -/
structure IntrinsicEmission where
  variant : FloatWidth
  argArrivals : List ValueType
  result : Value
deriving DecidableEq

/-- `SimpleNumericalFunctionIntrinsic` from `LLVMContext.cpp` (the shared
lowering of abs/cos/exp/log/sin/sqrt/tanh): exactly one argument; boolean
arguments are a type mismatch; the float runtime variant is fetched for
`Float` arguments and the double variant for everything else; the result is
allocated with the argument's layout (scalar if unconstrained) and filled by
a per-coordinate call whose argument element is passed unchanged when
floating point and cast to double otherwise.  `mathFn` stands for the opaque
runtime function. -/
def SimpleNumericalFunctionIntrinsic (mathFn : FloatWidth → Int → Int)
    (st : ContextState) (args : List Value) :
    Except ErrorKind (ContextState × IntrinsicEmission) :=
  match args with
  | [value] =>
    if value.baseType = .Boolean then .error .inputTypeMismatch
    else
      let variableType := match value.baseType with
        | .Float => FloatWidth.float
        | _ => FloatWidth.double
      let (returnValue, st') :=
        AllocateImpl st value.baseType (if value.IsConstrained then value.GetLayout else ScalarLayout)
      let returnLayout := returnValue.GetLayout
      let result :=
        match returnValue.data with
        | .emittable handle off contents =>
          let newContents :=
            (odometerCoords returnLayout.activeSize).foldl
              (fun acc c =>
                let o := returnLayout.GetLogicalEntryOffset
                  (returnLayout.GetLogicalCoordinates c)
                acc.set o (mathFn variableType (value.elemAt o)))
              contents
          { returnValue with data := .emittable handle off newContents }
        | _ => returnValue
      .ok (st', ⟨variableType, [arrivalType value.baseType], result⟩)
  | _ => .error .inputInvalidSize

/-- `PowFunctionIntrinsic` from `LLVMContext.cpp`: exactly two arguments of
equal, non-boolean base type; the exponent must be unconstrained or have
exactly the scalar layout; the runtime pow variant follows the base
argument's type; the exponent element 0 is read once (cast to double unless
floating point) and the result is filled per-coordinate like the simple
intrinsics.  `powFn` stands for the opaque runtime function. -/
def PowFunctionIntrinsic (powFn : FloatWidth → Int → Int → Int)
    (st : ContextState) (args : List Value) :
    Except ErrorKind (ContextState × IntrinsicEmission) :=
  match args with
  | [value1, value2] =>
    if value1.baseType ≠ value2.baseType then .error .inputTypeMismatch
    else if value1.baseType = .Boolean then .error .inputTypeMismatch
    else if value2.IsConstrained && decide (value2.GetLayout ≠ ScalarLayout) then
      .error .inputInvalidSize
    else
      let variableType := match value1.baseType with
        | .Float => FloatWidth.float
        | _ => FloatWidth.double
      let (returnValue, st') :=
        AllocateImpl st value1.baseType
          (if value1.IsConstrained then value1.GetLayout else ScalarLayout)
      let returnLayout := returnValue.GetLayout
      let expElem := value2.elemAt 0
      let result :=
        match returnValue.data with
        | .emittable handle off contents =>
          let newContents :=
            (odometerCoords returnLayout.activeSize).foldl
              (fun acc c =>
                let o := returnLayout.GetLogicalEntryOffset
                  (returnLayout.GetLogicalCoordinates c)
                acc.set o (powFn variableType (value1.elemAt o) expElem))
              contents
          { returnValue with data := .emittable handle off newContents }
        | _ => returnValue
      .ok (st', ⟨variableType, [arrivalType value1.baseType, arrivalType value2.baseType], result⟩)
  | _ => .error .inputInvalidSize

/-- The two intrinsics sharing the max/min lowering. -/
inductive MaxMinIntrinsic where
  | Max
  | Min
deriving DecidableEq

/-- `MaxMinIntrinsicFunction` from `LLVMContext.cpp`.  One argument: reject
booleans, allocate a scalar result initialised to the input's element 0, fold
a compare-and-select over the input layout's odometer sequence.  Two
arguments: equal non-boolean base types, both scalar-shaped, a single
compare-and-select.  Any other arity is an invalid size. -/
def MaxMinIntrinsicFunction (intrinsic : MaxMinIntrinsic) (st : ContextState)
    (args : List Value) : Except ErrorKind (ContextState × Value) :=
  let sel : Int → Int → Int := fun a b =>
    match intrinsic with
    | .Max => if a ≥ b then a else b
    | .Min => if a ≤ b then a else b
  match args with
  | [value] =>
    if value.baseType = .Boolean then .error .inputTypeMismatch
    else
      let (result, st') := AllocateImpl st value.baseType ScalarLayout
      let inputLayout := value.GetLayout
      let folded :=
        (odometerCoords inputLayout.activeSize).foldl
          (fun acc c =>
            let o := inputLayout.GetLogicalEntryOffset
              (inputLayout.GetLogicalCoordinates c)
            sel acc (value.elemAt o))
          (value.elemAt 0)
      match result.data with
      | .emittable handle off _ =>
        .ok (st', { result with data := .emittable handle off [folded] })
      | _ => .ok (st', result)
  | [value1, value2] =>
    if value1.baseType ≠ value2.baseType then .error .inputTypeMismatch
    else if value1.baseType = .Boolean then .error .inputTypeMismatch
    else if (value1.IsConstrained && decide (value1.GetLayout ≠ ScalarLayout)) ||
        (value2.IsConstrained && decide (value2.GetLayout ≠ ScalarLayout)) then
      .error .inputInvalidSize
    else
      let (result, st') := AllocateImpl st value1.baseType ScalarLayout
      match result.data with
      | .emittable handle off _ =>
        .ok (st', { result with
          data := .emittable handle off [sel (value1.elemAt 0) (value2.elemAt 0)] })
      | _ => .ok (st', result)
  | _ => .error .inputInvalidSize

/-- The initial state of an `LLVMContext`: the constructor pushes one empty
promoted-constant frame; no function scope is active and the registries are
empty. -/
def initialContext (moduleName : String) : ContextState :=
  { moduleName := moduleName, functionStack := [], promotedConstantStack := [[]],
    nextStorage := 0, globals := [], definedFunctions := [], nextFnId := 0 }

/-- A concrete module name used by the witnesses. -/
def testModuleName : String := "m"

theorem find?_append_of_none {α : Type} (p : α → Bool) :
    ∀ (l1 l2 : List α), l1.find? p = none → (l1 ++ l2).find? p = l2.find? p := by
  intro l1 l2 h
  induction l1 with
  | nil => simp
  | cons a tl ih =>
    rw [List.find?_cons] at h
    rcases hpa : p a with _ | _
    · rw [List.cons_append, List.find?_cons, hpa]
      exact ih (by rwa [hpa] at h)
    · rw [hpa] at h
      exact absurd h (by simp)

theorem foldl_and_eq_all {α : Type} (p : α → Bool) :
    ∀ (l : List α) (b : Bool), l.foldl (fun acc x => acc && p x) b = (b && l.all p) := by
  intro l
  induction l with
  | nil => intro b; simp
  | cons a tl ih =>
    intro b
    rw [List.foldl_cons, ih, List.all_cons, Bool.and_assoc]

/-- C2.  For every memory layout with (positive) active size
`[d0, d1, ..., dn]`, `ForImpl` iterates the coordinates in odometer order
with the last dimension varying fastest: the last component of the coordinate
vector is incremented first, overflow resets that component to zero and
carries into the previous dimension, and iteration terminates once the first
(outermost) dimension overflows — formally, the visited coordinate sequence
is exactly the spec's last-dimension-fastest enumeration; in particular for
active size `[2,3]` it is `(0,0),(0,1),(0,2),(1,0),(1,1),(1,2)`. -/
theorem C2_for_iterates_in_odometer_order (layout : MemoryLayout)
    (hpos : ∀ d ∈ layout.activeSize, 0 < d) :
    ForImplCoords layout = specLastFastestEnum layout.activeSize := by
  unfold ForImplCoords
  rw [odometerCoords_eq_specEnum hpos]
  have hid : ∀ c ∈ specLastFastestEnum layout.activeSize,
      layout.GetLogicalCoordinates c = c := fun c _ => rfl
  rw [List.map_congr_left hid, List.map_id']

/-- Witness for C2 at active size `[2,3]`: the visited sequence is the one
the claim lists. -/
theorem C2_for_iterates_in_odometer_order_witness :
    ForImplCoords ⟨[2, 3]⟩ =
      [[0, 0], [0, 1], [0, 2], [1, 0], [1, 1], [1, 2]] := by
  rw [C2_for_iterates_in_odometer_order ⟨[2, 3]⟩ (by decide)]
  decide

/-- C5.  `CreateFunction` memoizes by declaration: a declaration equal to a
built-in intrinsic fails with `invalidArgument` before the cache is consulted
(for every cache state); for a non-intrinsic declaration not in the cache the
first call invokes the body (reported by the `true` flag), registers the
callable, and the immediately following call with the same declaration
returns the cached callable without invoking the body (`false` flag) and
without changing the state; a cached declaration is always answered from the
cache. -/
theorem C5_create_function_memoizes :
    (∀ (st : ContextState) (decl : FunctionDeclaration), decl ∈ GetIntrinsics →
      CreateFunctionImpl st decl = .error .inputInvalidArgument) ∧
    (∀ (st : ContextState) (decl : FunctionDeclaration) (cached : FunctionDeclaration × Nat),
      decl ∉ GetIntrinsics →
      st.definedFunctions.find? (fun p => decide (p.1 = decl)) = some cached →
      CreateFunctionImpl st decl = .ok (st, cached.2, false)) ∧
    (∀ (st : ContextState) (decl : FunctionDeclaration), decl ∉ GetIntrinsics →
      st.definedFunctions.find? (fun p => decide (p.1 = decl)) = none →
      CreateFunctionImpl st decl =
        .ok ({ st with
                definedFunctions := st.definedFunctions ++ [(decl, st.nextFnId)],
                nextFnId := st.nextFnId + 1 },
             st.nextFnId, true) ∧
      CreateFunctionImpl
          { st with
            definedFunctions := st.definedFunctions ++ [(decl, st.nextFnId)],
            nextFnId := st.nextFnId + 1 } decl =
        .ok ({ st with
                definedFunctions := st.definedFunctions ++ [(decl, st.nextFnId)],
                nextFnId := st.nextFnId + 1 },
             st.nextFnId, false)) := by
  refine ⟨?_, ?_, ?_⟩
  · intro st decl hin
    unfold CreateFunctionImpl
    rw [if_pos hin]
  · intro st decl cached hnin hfind
    unfold CreateFunctionImpl
    rw [if_neg hnin, hfind]
  · intro st decl hnin hfind
    constructor
    · unfold CreateFunctionImpl
      rw [if_neg hnin, hfind]
    · unfold CreateFunctionImpl
      rw [if_neg hnin]
      have hfind2 :
          (st.definedFunctions ++ [(decl, st.nextFnId)]).find? (fun p => decide (p.1 = decl)) =
            some (decl, st.nextFnId) := by
        rw [find?_append_of_none _ _ _ hfind]
        simp
      rw [hfind2]

/-- Witness for C5: a fresh declaration in a fresh context is defined once
(body invoked), the second registration is answered from the cache with the
same callable id and the body flag `false`, and registering the `abs`
intrinsic declaration fails. -/
theorem C5_create_function_memoizes_witness :
    CreateFunctionImpl (initialContext testModuleName) ⟨"f", [], none⟩ =
      .ok ({ initialContext testModuleName with
              definedFunctions := [(⟨"f", [], none⟩, 0)], nextFnId := 1 }, 0, true) ∧
    CreateFunctionImpl
        { initialContext testModuleName with
          definedFunctions := [(⟨"f", [], none⟩, 0)], nextFnId := 1 } ⟨"f", [], none⟩ =
      .ok ({ initialContext testModuleName with
              definedFunctions := [(⟨"f", [], none⟩, 0)], nextFnId := 1 }, 0, false) ∧
    CreateFunctionImpl (initialContext testModuleName) AbsFunctionDeclaration =
      .error .inputInvalidArgument := by
  refine ⟨?_, ?_, ?_⟩
  · exact (C5_create_function_memoizes.2.2 (initialContext testModuleName) ⟨"f", [], none⟩
      (by decide) (by rfl)).1
  · exact (C5_create_function_memoizes.2.2 (initialContext testModuleName) ⟨"f", [], none⟩
      (by decide) (by rfl)).2
  · exact C5_create_function_memoizes.1 (initialContext testModuleName) AbsFunctionDeclaration (by decide)

/-- C10.  `IsFunctionDefined` returns true for every declaration equal to a
built-in intrinsic — even though `CreateFunction` rejects such declarations,
so no user function with that declaration can ever have been created — and
for every other declaration it returns true exactly when the declaration is
present in the defined-function cache. -/
theorem C10_is_function_defined_intrinsics :
    (∀ (st : ContextState) (decl : FunctionDeclaration), decl ∈ GetIntrinsics →
      IsFunctionDefinedImpl st decl = true ∧
      CreateFunctionImpl st decl = .error .inputInvalidArgument) ∧
    (∀ (st : ContextState) (decl : FunctionDeclaration), decl ∉ GetIntrinsics →
      (IsFunctionDefinedImpl st decl = true ↔
        (st.definedFunctions.find? (fun p => decide (p.1 = decl))).isSome = true)) := by
  constructor
  · intro st decl hin
    constructor
    · unfold IsFunctionDefinedImpl
      rw [if_pos hin]
    · unfold CreateFunctionImpl
      rw [if_pos hin]
  · intro st decl hnin
    unfold IsFunctionDefinedImpl
    rw [if_neg hnin]

/-- Witness for C10: in a fresh context — where certainly no user function
was created — the `abs` intrinsic declaration counts as defined, creating it
fails, and a non-intrinsic declaration does not count as defined. -/
theorem C10_is_function_defined_intrinsics_witness :
    IsFunctionDefinedImpl (initialContext testModuleName) AbsFunctionDeclaration = true ∧
    CreateFunctionImpl (initialContext testModuleName) AbsFunctionDeclaration =
      .error .inputInvalidArgument ∧
    (IsFunctionDefinedImpl (initialContext testModuleName) ⟨"f", [], none⟩ = true ↔
      ((initialContext testModuleName).definedFunctions.find?
        (fun p => decide (p.1 = (⟨"f", [], none⟩ : FunctionDeclaration)))).isSome = true) := by
  refine ⟨?_, ?_, ?_⟩
  · exact (C10_is_function_defined_intrinsics.1 (initialContext testModuleName)
      AbsFunctionDeclaration (by decide)).1
  · exact (C10_is_function_defined_intrinsics.1 (initialContext testModuleName)
      AbsFunctionDeclaration (by decide)).2
  · exact C10_is_function_defined_intrinsics.2 (initialContext testModuleName) ⟨"f", [], none⟩ (by decide)

/-- `HasBeenPromoted` on a defined, non-empty constant value reduces to the
identity lookup in the current promotion frame. -/
theorem HasBeenPromoted_eq_find (st : ContextState) (v : Value) (b : ConstBuf) (o : Nat)
    (hdata : v.data = .constant b o) (hne : v.IsEmpty = false) :
    HasBeenPromoted st v =
      (st.promotedConstantStack.headD []).find? (fun r => decide (r.1 = b.id)) := by
  have hconst : v.IsConstant = true := by unfold Value.IsConstant; rw [hdata]
  have hdef : v.IsDefined = true := by unfold Value.IsDefined; rw [hdata]
  unfold HasBeenPromoted
  rw [if_neg (by simp [hconst, hdef, hne]), hdata]

/-- `Realize` leaves an unpromoted constant value unchanged. -/
theorem Realize_not_promoted (st : ContextState) (v : Value) (b : ConstBuf) (o : Nat)
    (hdata : v.data = .constant b o) (hne : v.IsEmpty = false)
    (hfresh : (st.promotedConstantStack.headD []).find? (fun r => decide (r.1 = b.id)) = none) :
    Realize st v = v := by
  unfold Realize
  rw [HasBeenPromoted_eq_find st v b o hdata hne, hfresh]

/-- `Realize` rebinds a promoted constant value to the recorded storage at
the value's own buffer offset. -/
theorem Realize_promoted (st : ContextState) (v : Value) (b : ConstBuf) (o : Nat)
    (record : Nat × Nat) (hdata : v.data = .constant b o) (hne : v.IsEmpty = false)
    (hfound : (st.promotedConstantStack.headD []).find? (fun r => decide (r.1 = b.id)) =
      some record) :
    Realize st v = { v with data := .emittable record.2 o (b.data.drop o) } := by
  unfold Realize
  rw [HasBeenPromoted_eq_find st v b o hdata hne, hfound]
  show (match v.data with
    | .constant buf off => { v with data := .emittable record.2 off (buf.data.drop off) }
    | _ => v) = _
  rw [hdata]

/-- `PromoteConstantData` on a constant value: fresh storage, a new record in
the top frame, and a handle at the value's own buffer offset. -/
theorem PromoteConstantData_eq (st : ContextState) (v : Value) (b : ConstBuf) (o : Nat)
    (hdata : v.data = .constant b o) :
    PromoteConstantData st v =
      ({ v with data := .emittable st.nextStorage o (b.data.drop o) },
       { st with
         promotedConstantStack :=
           ((st.promotedConstantStack.headD []) ++ [(b.id, st.nextStorage)]) ::
             st.promotedConstantStack.tail,
         nextStorage := st.nextStorage + 1 }) := by
  unfold PromoteConstantData
  rw [hdata]
  dsimp only
  rw [ite_self]

/-- `EnsureEmittable` on an unpromoted constant value promotes it. -/
theorem EnsureEmittable_promotes (st : ContextState) (v : Value) (b : ConstBuf) (o : Nat)
    (hdata : v.data = .constant b o) (hne : v.IsEmpty = false)
    (hfresh : (st.promotedConstantStack.headD []).find? (fun r => decide (r.1 = b.id)) = none) :
    EnsureEmittable st v =
      ({ v with data := .emittable st.nextStorage o (b.data.drop o) },
       { st with
         promotedConstantStack :=
           ((st.promotedConstantStack.headD []) ++ [(b.id, st.nextStorage)]) ::
             st.promotedConstantStack.tail,
         nextStorage := st.nextStorage + 1 }) := by
  have hconst : v.IsConstant = true := by unfold Value.IsConstant; rw [hdata]
  unfold EnsureEmittable
  rw [if_neg (by simp [hconst]), Realize_not_promoted st v b o hdata hne hfresh,
    if_neg (by simp [hconst]), PromoteConstantData_eq st v b o hdata]

/-- `EnsureEmittable` on an already-promoted constant value reuses the
recorded storage and leaves the state unchanged. -/
theorem EnsureEmittable_reuses (st : ContextState) (v : Value) (b : ConstBuf) (o : Nat)
    (record : Nat × Nat) (hdata : v.data = .constant b o) (hne : v.IsEmpty = false)
    (hfound : (st.promotedConstantStack.headD []).find? (fun r => decide (r.1 = b.id)) =
      some record) :
    EnsureEmittable st v = ({ v with data := .emittable record.2 o (b.data.drop o) }, st) := by
  have hconst : v.IsConstant = true := by unfold Value.IsConstant; rw [hdata]
  unfold EnsureEmittable
  rw [if_neg (by simp [hconst]), Realize_promoted st v b o record hdata hne hfound,
    if_pos (by simp [Value.IsConstant])]

/-- C1.  For every defined, non-empty constant value, materialising it twice
within the same function scope yields emittable handles backed by the same
backend storage: the first `EnsureEmittable` promotes the backing buffer to
fresh storage and records the pair (buffer identity, storage) in the current
frame; the second finds that record by the identity of the constant buffer —
not by value equality, witnessed by the third conjunct, where a buffer with
contents equal to `b`'s but a different identity receives different storage —
and reuses the recorded storage without changing the state; both returned
handles point at an offset into that storage equal to the value's own offset
`o` within its backing constant buffer. -/
theorem C1_constant_promotion_idempotent
    (st : ContextState) (v : Value) (b : ConstBuf) (o : Nat)
    (hdata : v.data = .constant b o)
    (hne : v.IsEmpty = false)
    (hfresh : (st.promotedConstantStack.headD []).find? (fun r => decide (r.1 = b.id)) = none) :
    EnsureEmittable st v =
      ({ v with data := .emittable st.nextStorage o (b.data.drop o) },
       { st with
         promotedConstantStack :=
           ((st.promotedConstantStack.headD []) ++ [(b.id, st.nextStorage)]) ::
             st.promotedConstantStack.tail,
         nextStorage := st.nextStorage + 1 }) ∧
    EnsureEmittable (EnsureEmittable st v).2 v =
      ({ v with data := .emittable st.nextStorage o (b.data.drop o) },
       (EnsureEmittable st v).2) ∧
    (∀ (w : Value) (b' : ConstBuf) (o' : Nat),
      w.data = .constant b' o' → w.IsEmpty = false → b'.id ≠ b.id → b'.data = b.data →
      (st.promotedConstantStack.headD []).find? (fun r => decide (r.1 = b'.id)) = none →
      (EnsureEmittable (EnsureEmittable st v).2 w).1.emittableStorage =
          some (st.nextStorage + 1) ∧
        st.nextStorage + 1 ≠ st.nextStorage) := by
  have hfirst := EnsureEmittable_promotes st v b o hdata hne hfresh
  refine ⟨hfirst, ?_, ?_⟩
  · rw [hfirst]
    apply EnsureEmittable_reuses _ v b o (b.id, st.nextStorage) hdata hne
    show ((st.promotedConstantStack.headD []) ++ [(b.id, st.nextStorage)]).find?
        (fun r => decide (r.1 = b.id)) = some (b.id, st.nextStorage)
    rw [find?_append_of_none _ _ _ hfresh]
    simp
  · intro w b' o' hwdata hwne hid _hvaleq hwfresh
    rw [hfirst]
    have hnotfound : (((st.promotedConstantStack.headD []) ++ [(b.id, st.nextStorage)]).find?
        (fun r => decide (r.1 = b'.id))) = none := by
      rw [find?_append_of_none _ _ _ hwfresh]
      simp [Ne.symm hid]
    refine ⟨?_, by omega⟩
    have hprom := EnsureEmittable_promotes
      { st with
        promotedConstantStack :=
          ((st.promotedConstantStack.headD []) ++ [(b.id, st.nextStorage)]) ::
            st.promotedConstantStack.tail,
        nextStorage := st.nextStorage + 1 }
      w b' o' hwdata hwne hnotfound
    rw [hprom]
    rfl

/-- A constant value over the buffer with identity 7 and contents
`[10, 20]`, viewed at offset 1; input of the C1 witness. -/
def promotionWitnessValue : Value :=
  { baseType := .Int32, pointerLevel := 0, layout := ⟨[1]⟩, constrained := true,
    data := .constant ⟨7, [10, 20]⟩ 1 }

/-- A constant value over a buffer with the same contents `[10, 20]` but
identity 8; input of the C1 witness. -/
def promotionWitnessValueTwin : Value :=
  { baseType := .Int32, pointerLevel := 0, layout := ⟨[1]⟩, constrained := true,
    data := .constant ⟨8, [10, 20]⟩ 1 }

/-- Witness for C1: a two-element constant buffer (id 7) viewed at offset 1,
promoted twice in a fresh context, both handles in storage 0 at offset 1; a
value-equal buffer with id 8 gets the next storage handle. -/
theorem C1_constant_promotion_idempotent_witness :
    (EnsureEmittable (initialContext testModuleName) promotionWitnessValue).1.data =
        .emittable 0 1 [20] ∧
    (EnsureEmittable
      (EnsureEmittable (initialContext testModuleName) promotionWitnessValue).2
      promotionWitnessValue).1.data = .emittable 0 1 [20] ∧
    (EnsureEmittable
      (EnsureEmittable (initialContext testModuleName) promotionWitnessValue).2
      promotionWitnessValueTwin).1.emittableStorage = some 1 := by
  have h := C1_constant_promotion_idempotent (initialContext testModuleName)
    promotionWitnessValue ⟨7, [10, 20]⟩ 1 rfl (by rfl) (by rfl)
  refine ⟨?_, ?_, ?_⟩
  · rw [h.1]
    rfl
  · rw [h.2.1]
    rfl
  · exact (h.2.2 promotionWitnessValueTwin ⟨8, [10, 20]⟩ 1 rfl (by rfl) (by decide)
      rfl rfl).1

/-- Scope-qualified names built from different function names (same module,
same unqualified name) are distinct strings. -/
theorem function_scoped_name_inj (m w : String) {f g : String}
    (h : m ++ "_" ++ (f ++ "_" ++ w) = m ++ "_" ++ (g ++ "_" ++ w)) : f = g := by
  apply String.ext
  have hd := congrArg String.data h
  simp only [String.data_append, List.append_assoc] at hd
  have h1 := List.append_cancel_left hd
  have h2 := List.append_cancel_left h1
  rw [← List.append_assoc, ← List.append_assoc] at h2
  exact List.append_cancel_right (List.append_cancel_right h2)

/-- Successful registration through the type/layout overload of
`GlobalAllocateImpl`. -/
theorem GlobalAllocateImplType_ok (st : ContextState) (scope : GlobalAllocationScope)
    (name qn : String) (type : ValueType) (layout : MemoryLayout)
    (hqn : GetScopeAdjustedName st scope name = .ok qn)
    (hfresh : st.globals.find? (fun p => decide (p.1 = qn)) = none) :
    GlobalAllocateImplType st scope name type layout =
      .ok ({ st with
              globals := st.globals ++ [(qn, st.nextStorage, layout)],
              nextStorage := st.nextStorage + 1 },
           { baseType := type, pointerLevel := 1, layout := layout, constrained := true,
             data := .emittable st.nextStorage 0 (List.replicate layout.GetMemorySize 0) }) := by
  unfold GlobalAllocateImplType
  rw [hqn]
  simp [Bind.bind, Except.bind, hfresh]
  rfl

/-- Name collision through the type/layout overload of `GlobalAllocateImpl`. -/
theorem GlobalAllocateImplType_collision (st : ContextState) (scope : GlobalAllocationScope)
    (name qn : String) (type : ValueType) (layout : MemoryLayout)
    (hqn : GetScopeAdjustedName st scope name = .ok qn)
    (hfound : (st.globals.find? (fun p => decide (p.1 = qn))).isSome = true) :
    GlobalAllocateImplType st scope name type layout = .error .inputInvalidArgument := by
  unfold GlobalAllocateImplType
  rw [hqn]
  simp [Bind.bind, Except.bind, hfound]
  rfl

/-- Name collision through the constant-data overload of
`GlobalAllocateImpl`. -/
theorem GlobalAllocateImplData_collision (st : ContextState) (scope : GlobalAllocationScope)
    (name qn : String) (type : ValueType) (dataInit : List Int) (layout : MemoryLayout)
    (hqn : GetScopeAdjustedName st scope name = .ok qn)
    (hfound : (st.globals.find? (fun p => decide (p.1 = qn))).isSome = true) :
    GlobalAllocateImplData st scope name type dataInit layout =
      .error .inputInvalidArgument := by
  unfold GlobalAllocateImplData
  rw [hqn]
  simp [Bind.bind, Except.bind, hfound]
  rfl

/-- C6.  Scope-qualified global names (`<module>_<function>_<name>` in
function scope): the first `GlobalAllocate` under a qualified name registers
it; a second `GlobalAllocate` producing the same qualified name — through
either overload — fails with `invalidArgument` and leaves the first
registration in place (the guard precedes any mutation); and registering the
same unqualified name from two different function scopes produces two
distinct qualified names and therefore two distinct globals (distinct
backend handles). -/
theorem C6_global_allocate_name_collision
    (st : ContextState) (f g w : String) (rest : List String)
    (ty : ValueType) (ly : MemoryLayout)
    (hfs : st.functionStack = f :: rest)
    (hfg : f ≠ g)
    (hfresh : st.globals.find?
      (fun p => decide (p.1 = GetGlobalScopedName st (f ++ "_" ++ w))) = none)
    (hfresh2 : st.globals.find?
      (fun p => decide (p.1 = GetGlobalScopedName st (g ++ "_" ++ w))) = none) :
    GlobalAllocateImplType st .Function w ty ly =
      .ok ({ st with
              globals := st.globals ++
                [(GetGlobalScopedName st (f ++ "_" ++ w), st.nextStorage, ly)],
              nextStorage := st.nextStorage + 1 },
           { baseType := ty, pointerLevel := 1, layout := ly, constrained := true,
             data := .emittable st.nextStorage 0 (List.replicate ly.GetMemorySize 0) }) ∧
    (∀ (ty' : ValueType) (ly' : MemoryLayout),
      GlobalAllocateImplType
        { st with
          globals := st.globals ++
            [(GetGlobalScopedName st (f ++ "_" ++ w), st.nextStorage, ly)],
          nextStorage := st.nextStorage + 1 } .Function w ty' ly' =
        .error .inputInvalidArgument) ∧
    (∀ (ty' : ValueType) (dataInit : List Int) (ly' : MemoryLayout),
      GlobalAllocateImplData
        { st with
          globals := st.globals ++
            [(GetGlobalScopedName st (f ++ "_" ++ w), st.nextStorage, ly)],
          nextStorage := st.nextStorage + 1 } .Function w ty' dataInit ly' =
        .error .inputInvalidArgument) ∧
    GetGlobalScopedName st (f ++ "_" ++ w) ≠ GetGlobalScopedName st (g ++ "_" ++ w) ∧
    (∀ (ty2 : ValueType) (ly2 : MemoryLayout),
      GlobalAllocateImplType
        { st with
          functionStack := g :: rest,
          globals := st.globals ++
            [(GetGlobalScopedName st (f ++ "_" ++ w), st.nextStorage, ly)],
          nextStorage := st.nextStorage + 1 } .Function w ty2 ly2 =
        .ok ({ st with
                functionStack := g :: rest,
                globals := st.globals ++
                  [(GetGlobalScopedName st (f ++ "_" ++ w), st.nextStorage, ly),
                   (GetGlobalScopedName st (g ++ "_" ++ w), st.nextStorage + 1, ly2)],
                nextStorage := st.nextStorage + 2 },
             { baseType := ty2, pointerLevel := 1, layout := ly2, constrained := true,
               data := .emittable (st.nextStorage + 1) 0
                 (List.replicate ly2.GetMemorySize 0) })) ∧
    st.nextStorage + 1 ≠ st.nextStorage := by
  have hqnf : GetScopeAdjustedName st .Function w =
      .ok (GetGlobalScopedName st (f ++ "_" ++ w)) := by
    unfold GetScopeAdjustedName GetCurrentFunctionScopedName
    rw [hfs]
  have hne : GetGlobalScopedName st (f ++ "_" ++ w) ≠
      GetGlobalScopedName st (g ++ "_" ++ w) := by
    intro h
    exact hfg (function_scoped_name_inj st.moduleName w h)
  refine ⟨?_, ?_, ?_, hne, ?_, by omega⟩
  · exact GlobalAllocateImplType_ok st .Function w
      (GetGlobalScopedName st (f ++ "_" ++ w)) ty ly hqnf hfresh
  · intro ty' ly'
    apply GlobalAllocateImplType_collision _ .Function w
      (GetGlobalScopedName st (f ++ "_" ++ w)) ty' ly'
    · unfold GetScopeAdjustedName GetCurrentFunctionScopedName
      rw [show ({ st with
          globals := st.globals ++
            [(GetGlobalScopedName st (f ++ "_" ++ w), st.nextStorage, ly)],
          nextStorage := st.nextStorage + 1 } : ContextState).functionStack = f :: rest
        from hfs]
      rfl
    · show ((st.globals ++
          [(GetGlobalScopedName st (f ++ "_" ++ w), st.nextStorage, ly)]).find?
          (fun p => decide (p.1 = GetGlobalScopedName st (f ++ "_" ++ w)))).isSome = true
      rw [find?_append_of_none _ _ _ hfresh]
      simp
  · intro ty' dataInit ly'
    apply GlobalAllocateImplData_collision _ .Function w
      (GetGlobalScopedName st (f ++ "_" ++ w)) ty' dataInit ly'
    · unfold GetScopeAdjustedName GetCurrentFunctionScopedName
      rw [show ({ st with
          globals := st.globals ++
            [(GetGlobalScopedName st (f ++ "_" ++ w), st.nextStorage, ly)],
          nextStorage := st.nextStorage + 1 } : ContextState).functionStack = f :: rest
        from hfs]
      rfl
    · show ((st.globals ++
          [(GetGlobalScopedName st (f ++ "_" ++ w), st.nextStorage, ly)]).find?
          (fun p => decide (p.1 = GetGlobalScopedName st (f ++ "_" ++ w)))).isSome = true
      rw [find?_append_of_none _ _ _ hfresh]
      simp
  · intro ty2 ly2
    have hfresh3 : (({ st with
        functionStack := g :: rest,
        globals := st.globals ++
          [(GetGlobalScopedName st (f ++ "_" ++ w), st.nextStorage, ly)],
        nextStorage := st.nextStorage + 1 } : ContextState).globals.find?
          (fun p => decide (p.1 = GetGlobalScopedName st (g ++ "_" ++ w)))) = none := by
      show ((st.globals ++
          [(GetGlobalScopedName st (f ++ "_" ++ w), st.nextStorage, ly)]).find?
          (fun p => decide (p.1 = GetGlobalScopedName st (g ++ "_" ++ w)))) = none
      rw [find?_append_of_none _ _ _ hfresh2]
      simp [hne]
    have := GlobalAllocateImplType_ok
      { st with
        functionStack := g :: rest,
        globals := st.globals ++
          [(GetGlobalScopedName st (f ++ "_" ++ w), st.nextStorage, ly)],
        nextStorage := st.nextStorage + 1 }
      .Function w (GetGlobalScopedName st (g ++ "_" ++ w)) ty2 ly2 rfl hfresh3
    rw [this]
    simp only [List.append_assoc]
    rfl

/-- A concrete function name used by the C6 witness. -/
def fnNameA : String := "fn1"

/-- A second concrete function name used by the C6 witness. -/
def fnNameB : String := "fn2"

/-- The unqualified global name used by the C6 witness. -/
def globalNameW : String := "w"

/-- A fresh context inside function scope `fn1`, used by the C6 witness. -/
def ctx6 : ContextState :=
  { initialContext testModuleName with functionStack := [fnNameA] }

/-- Witness for C6: registering `w` in function scope `fn1` of a fresh
context succeeds with handle 0; re-registering `w` in the same scope fails;
the two scope-qualified names for `fn1` and `fn2` differ; and registering `w`
from scope `fn2` succeeds with the distinct handle 1. -/
theorem C6_global_allocate_name_collision_witness :
    GlobalAllocateImplType ctx6 .Function globalNameW .Int32 ⟨[2]⟩ =
      .ok ({ ctx6 with
              globals := [(GetGlobalScopedName ctx6 (fnNameA ++ "_" ++ globalNameW), 0, ⟨[2]⟩)],
              nextStorage := 1 },
           { baseType := .Int32, pointerLevel := 1, layout := ⟨[2]⟩, constrained := true,
             data := .emittable 0 0 [0, 0] }) ∧
    GlobalAllocateImplType
        { ctx6 with
          globals := [(GetGlobalScopedName ctx6 (fnNameA ++ "_" ++ globalNameW), 0, ⟨[2]⟩)],
          nextStorage := 1 }
        .Function globalNameW .Int64 ⟨[3]⟩ = .error .inputInvalidArgument ∧
    GetGlobalScopedName ctx6 (fnNameA ++ "_" ++ globalNameW) ≠
      GetGlobalScopedName ctx6 (fnNameB ++ "_" ++ globalNameW) ∧
    GlobalAllocateImplType
        { ctx6 with
          functionStack := [fnNameB],
          globals := [(GetGlobalScopedName ctx6 (fnNameA ++ "_" ++ globalNameW), 0, ⟨[2]⟩)],
          nextStorage := 1 }
        .Function globalNameW .Int32 ⟨[2]⟩ =
      .ok ({ ctx6 with
              functionStack := [fnNameB],
              globals :=
                [(GetGlobalScopedName ctx6 (fnNameA ++ "_" ++ globalNameW), 0, ⟨[2]⟩),
                 (GetGlobalScopedName ctx6 (fnNameB ++ "_" ++ globalNameW), 1, ⟨[2]⟩)],
              nextStorage := 2 },
           { baseType := .Int32, pointerLevel := 1, layout := ⟨[2]⟩, constrained := true,
             data := .emittable 1 0 [0, 0] }) := by
  have h := C6_global_allocate_name_collision ctx6 fnNameA fnNameB globalNameW []
    .Int32 ⟨[2]⟩ rfl (by decide) rfl rfl
  exact ⟨h.1, h.2.1 .Int64 ⟨[3]⟩, h.2.2.2.1, h.2.2.2.2.1 .Int32 ⟨[2]⟩⟩

/-- C9.  For every `MoveData(src, dst)` that completes without error, the
destination afterwards holds exactly what `CopyData(src, dst)` produces, the
source is reset to the undefined state (no longer defined), and any
subsequent use of the source as an operand — here as the source operand of a
`BinaryOperation` — fails with the invalid-argument condition raised for
empty/undefined operands. -/
theorem C9_move_clears_source (source destination destination' : Value)
    (hcopy : CopyDataImpl source destination = .ok destination') :
    MoveDataImpl source destination = .ok (source.Reset, destination') ∧
    source.Reset.IsDefined = false ∧
    (∀ (st : ContextState) (op : ValueBinaryOperation) (other : Value),
      BinaryOperationImpl st op other source.Reset = .error .inputInvalidArgument) := by
  refine ⟨?_, rfl, ?_⟩
  · unfold MoveDataImpl
    rw [hcopy]
  · intro st op other
    unfold BinaryOperationImpl
    rfl

/-- Witness for C9: moving a two-element constant into an emittable
destination copies the data, then resets the source; the reset source is
rejected as a binary-operation operand. -/
theorem C9_move_clears_source_witness :
    MoveDataImpl
        { baseType := .Int32, pointerLevel := 0, layout := ⟨[2]⟩, constrained := true,
          data := .constant ⟨7, [10, 20]⟩ 0 }
        { baseType := .Int32, pointerLevel := 1, layout := ⟨[2]⟩, constrained := true,
          data := .emittable 3 0 [0, 0] } =
      .ok ({ baseType := .Int32, pointerLevel := 0, layout := ⟨[2]⟩, constrained := true,
             data := .undefined },
           { baseType := .Int32, pointerLevel := 1, layout := ⟨[2]⟩, constrained := true,
             data := .emittable 3 0 [10, 20] }) ∧
    BinaryOperationImpl (initialContext testModuleName) .add
        { baseType := .Int32, pointerLevel := 1, layout := ⟨[2]⟩, constrained := true,
          data := .emittable 3 0 [10, 20] }
        ({ baseType := .Int32, pointerLevel := 0, layout := ⟨[2]⟩, constrained := true,
           data := .constant ⟨7, [10, 20]⟩ 0 } : Value).Reset =
      .error .inputInvalidArgument := by
  have h := C9_move_clears_source
    { baseType := .Int32, pointerLevel := 0, layout := ⟨[2]⟩, constrained := true,
      data := .constant ⟨7, [10, 20]⟩ 0 }
    { baseType := .Int32, pointerLevel := 1, layout := ⟨[2]⟩, constrained := true,
      data := .emittable 3 0 [0, 0] }
    { baseType := .Int32, pointerLevel := 1, layout := ⟨[2]⟩, constrained := true,
      data := .emittable 3 0 [10, 20] }
    (by rfl)
  exact ⟨h.1, h.2.2 (initialContext testModuleName) .add
    { baseType := .Int32, pointerLevel := 1, layout := ⟨[2]⟩, constrained := true,
      data := .emittable 3 0 [10, 20] }⟩

/-- On a defined pair with equal layouts, `LogicalOperationImpl` produces the
AND-accumulation fold on every path (constant folding included). -/
theorem LogicalOperationImpl_eq_fold (op : ValueLogicalOperation) (A B : Value)
    (hlay : A.GetLayout = B.GetLayout) (hA : A.IsDefined = true) (hB : B.IsDefined = true) :
    LogicalOperationImpl op A B =
      .ok (ScalarLayout, logicalFold (selectComparison op A.IsFloatingPointOrPointer) A B) := by
  unfold LogicalOperationImpl
  rw [if_neg (by simp [hlay])]
  by_cases hc : (A.IsConstant && B.IsConstant) = true
  · rw [if_pos hc]
    rfl
  · rw [if_neg hc]
    cases hdA : A.data with
    | undefined =>
      exact absurd hA (by unfold Value.IsDefined; rw [hdA]; simp)
    | constant bufA offA =>
      cases hdB : B.data with
      | undefined => exact absurd hB (by unfold Value.IsDefined; rw [hdB]; simp)
      | constant bufB offB => simp only [hdA, hdB]
      | emittable hB oB cB => simp only [hdA, hdB]
    | emittable hA' oA cA =>
      cases hdB : B.data with
      | undefined => exact absurd hB (by unfold Value.IsDefined; rw [hdB]; simp)
      | constant bufB offB => simp only [hdA, hdB]
      | emittable hB' oB cB => simp only [hdA, hdB]

/-- The AND-accumulation fold is the `all` of the per-coordinate comparison
over the spec's enumeration, for positive extents. -/
theorem logicalFold_eq_all (op : ValueLogicalOperation) (A B : Value)
    (hpos : ∀ d ∈ A.GetLayout.activeSize, 0 < d) :
    logicalFold (selectComparison op A.IsFloatingPointOrPointer) A B =
      (specLastFastestEnum A.GetLayout.activeSize).all fun c =>
        logicalOpMeaning op (A.elemAt (A.GetLayout.GetLogicalEntryOffset c))
          (B.elemAt (B.GetLayout.GetLogicalEntryOffset c)) := by
  unfold logicalFold
  rw [odometerCoords_eq_specEnum hpos]
  rw [foldl_and_eq_all (fun c =>
    (selectComparison op A.IsFloatingPointOrPointer).sem
      (A.elemAt (A.GetLayout.GetLogicalEntryOffset (A.GetLayout.GetLogicalCoordinates c)))
      (B.elemAt (B.GetLayout.GetLogicalEntryOffset (A.GetLayout.GetLogicalCoordinates c))))]
  rw [Bool.true_and]
  simp only [selectComparison_sem, MemoryLayout.GetLogicalCoordinates]

/-- C3.  `LogicalOperation(op, A, B)` fails with a size-mismatch error
whenever the layouts of `A` and `B` differ; when the layouts are equal (and
both operands are defined, over a region with positive extents) it returns a
single boolean scalar value equal to the logical AND, over every coordinate
of the shared active region, of the per-element comparison at that
coordinate; for the equality operation the result is true iff every
coordinate-wise pair is equal, and any single coordinate at which the
elements differ — e.g. one flipped element — forces the result to false. -/
theorem C3_logical_operation_reduction :
    (∀ (op : ValueLogicalOperation) (A B : Value), A.GetLayout ≠ B.GetLayout →
      LogicalOperationImpl op A B = .error .inputSizeMismatch) ∧
    (∀ (op : ValueLogicalOperation) (A B : Value), A.GetLayout = B.GetLayout →
      A.IsDefined = true → B.IsDefined = true →
      (∀ d ∈ A.GetLayout.activeSize, 0 < d) →
      LogicalOperationImpl op A B =
        .ok (ScalarLayout, (specLastFastestEnum A.GetLayout.activeSize).all fun c =>
          logicalOpMeaning op (A.elemAt (A.GetLayout.GetLogicalEntryOffset c))
            (B.elemAt (B.GetLayout.GetLogicalEntryOffset c)))) ∧
    (∀ (A B : Value), A.GetLayout = B.GetLayout →
      A.IsDefined = true → B.IsDefined = true →
      (∀ d ∈ A.GetLayout.activeSize, 0 < d) →
      (LogicalOperationImpl .equality A B = .ok (ScalarLayout, true) ↔
        ∀ c ∈ specLastFastestEnum A.GetLayout.activeSize,
          A.elemAt (A.GetLayout.GetLogicalEntryOffset c) =
            B.elemAt (B.GetLayout.GetLogicalEntryOffset c))) ∧
    (∀ (A B : Value) (c0 : List Nat), A.GetLayout = B.GetLayout →
      A.IsDefined = true → B.IsDefined = true →
      (∀ d ∈ A.GetLayout.activeSize, 0 < d) →
      c0 ∈ specLastFastestEnum A.GetLayout.activeSize →
      A.elemAt (A.GetLayout.GetLogicalEntryOffset c0) ≠
        B.elemAt (B.GetLayout.GetLogicalEntryOffset c0) →
      LogicalOperationImpl .equality A B = .ok (ScalarLayout, false)) := by
  have hmain : ∀ (op : ValueLogicalOperation) (A B : Value), A.GetLayout = B.GetLayout →
      A.IsDefined = true → B.IsDefined = true →
      (∀ d ∈ A.GetLayout.activeSize, 0 < d) →
      LogicalOperationImpl op A B =
        .ok (ScalarLayout, (specLastFastestEnum A.GetLayout.activeSize).all fun c =>
          logicalOpMeaning op (A.elemAt (A.GetLayout.GetLogicalEntryOffset c))
            (B.elemAt (B.GetLayout.GetLogicalEntryOffset c))) := by
    intro op A B hlay hA hB hpos
    rw [LogicalOperationImpl_eq_fold op A B hlay hA hB, logicalFold_eq_all op A B hpos]
  refine ⟨?_, hmain, ?_, ?_⟩
  · intro op A B hne
    unfold LogicalOperationImpl
    rw [if_pos hne]
  · intro A B hlay hA hB hpos
    rw [hmain .equality A B hlay hA hB hpos]
    simp [logicalOpMeaning, List.all_eq_true]
  · intro A B c0 hlay hA hB hpos hc0 hflip
    rw [hmain .equality A B hlay hA hB hpos]
    have hfalse : ((specLastFastestEnum A.GetLayout.activeSize).all fun c =>
        logicalOpMeaning .equality (A.elemAt (A.GetLayout.GetLogicalEntryOffset c))
          (B.elemAt (B.GetLayout.GetLogicalEntryOffset c))) = false :=
      List.all_eq_false.mpr ⟨c0, hc0, by simp [logicalOpMeaning, hflip]⟩
    rw [hfalse]

/-- Witness for C3: equal `[2]`-shaped operands (one constant, one
emittable) compare equal; differing layouts raise the size mismatch; value
`[10, 21]` differs from `[10, 20]` at the flipped coordinate `[1]`, so
equality returns false. -/
theorem C3_logical_operation_reduction_witness :
    LogicalOperationImpl .equality
        { baseType := .Int32, pointerLevel := 0, layout := ⟨[2]⟩, constrained := true,
          data := .constant ⟨7, [10, 20]⟩ 0 }
        { baseType := .Int32, pointerLevel := 1, layout := ⟨[2]⟩, constrained := true,
          data := .emittable 3 0 [10, 20] } = .ok (ScalarLayout, true) ∧
    LogicalOperationImpl .equality
        { baseType := .Int32, pointerLevel := 0, layout := ⟨[2]⟩, constrained := true,
          data := .constant ⟨7, [10, 20]⟩ 0 }
        { baseType := .Int32, pointerLevel := 1, layout := ⟨[3]⟩, constrained := true,
          data := .emittable 3 0 [10, 20, 30] } = .error .inputSizeMismatch ∧
    LogicalOperationImpl .equality
        { baseType := .Int32, pointerLevel := 0, layout := ⟨[2]⟩, constrained := true,
          data := .constant ⟨7, [10, 20]⟩ 0 }
        { baseType := .Int32, pointerLevel := 1, layout := ⟨[2]⟩, constrained := true,
          data := .emittable 3 0 [10, 21] } = .ok (ScalarLayout, false) := by
  refine ⟨?_, ?_, ?_⟩
  · rw [(C3_logical_operation_reduction.2.2.1
      { baseType := .Int32, pointerLevel := 0, layout := ⟨[2]⟩, constrained := true,
        data := .constant ⟨7, [10, 20]⟩ 0 }
      { baseType := .Int32, pointerLevel := 1, layout := ⟨[2]⟩, constrained := true,
        data := .emittable 3 0 [10, 20] } rfl rfl rfl (by decide)).mpr (by decide)]
  · exact C3_logical_operation_reduction.1 .equality
      { baseType := .Int32, pointerLevel := 0, layout := ⟨[2]⟩, constrained := true,
        data := .constant ⟨7, [10, 20]⟩ 0 }
      { baseType := .Int32, pointerLevel := 1, layout := ⟨[3]⟩, constrained := true,
        data := .emittable 3 0 [10, 20, 30] } (by decide)
  · exact C3_logical_operation_reduction.2.2.2
      { baseType := .Int32, pointerLevel := 0, layout := ⟨[2]⟩, constrained := true,
        data := .constant ⟨7, [10, 20]⟩ 0 }
      { baseType := .Int32, pointerLevel := 1, layout := ⟨[2]⟩, constrained := true,
        data := .emittable 3 0 [10, 21] } [1] rfl rfl rfl (by decide) (by decide) (by decide)

/-- On the emitted (non-folded) path — defined source, emittable destination,
compatible base types, equal layouts, source not a constant boolean —
`BinaryOperationImpl` resolves to the opcode selection switch: a selection
error is the call's error, and a selected opcode is the opcode of the emitted
per-coordinate loop. -/
theorem BinaryOperationImpl_emitted_path
    (st : ContextState) (op : ValueBinaryOperation) (destination source : Value)
    (handle off : Nat) (contents : List Int)
    (hd : destination.data = .emittable handle off contents)
    (hsd : source.IsDefined = true)
    (htc : TypeCompatible destination source = true)
    (hlay : destination.GetLayout = source.GetLayout)
    (hnb : ¬(source.IsConstant = true ∧ source.baseType = ValueType.Boolean)) :
    (∀ e, selectBinaryOperator op destination.IsFloatingPointOrPointer = .error e →
      BinaryOperationImpl st op destination source = .error e) ∧
    (∀ typedOp, selectBinaryOperator op destination.IsFloatingPointOrPointer = .ok typedOp →
      emittedOperator (BinaryOperationImpl st op destination source) = some typedOp) := by
  obtain ⟨dbt, dpl, dlay, dcon, ddata⟩ := destination
  simp only at hd
  subst hd
  obtain ⟨sbt, spl, slay, scon, sdata⟩ := source
  simp only [TypeCompatible, decide_eq_true_eq] at htc
  subst htc
  simp only [Value.GetLayout] at hlay
  subst hlay
  cases sdata with
  | undefined => simp [Value.IsDefined] at hsd
  | constant buf soff =>
    have hsbt : ¬ (dbt = ValueType.Boolean) := by
      intro h
      exact hnb ⟨rfl, h⟩
    constructor
    · intro e hsel
      simp [BinaryOperationImpl, Bind.bind, Except.bind, Value.IsDefined, Value.IsConstant,
        EnsureEmittable, TypeCompatible, Value.GetLayout, pure, Except.pure, hsbt, hsel]
    · intro typedOp hsel
      simp [BinaryOperationImpl, Bind.bind, Except.bind, Value.IsDefined, Value.IsConstant,
        EnsureEmittable, TypeCompatible, Value.GetLayout, pure, Except.pure, hsbt, hsel,
        emittedOperator]
  | emittable sh so sc =>
    constructor
    · intro e hsel
      simp [BinaryOperationImpl, Bind.bind, Except.bind, Value.IsDefined, Value.IsConstant,
        EnsureEmittable, TypeCompatible, Value.GetLayout, pure, Except.pure, hsel]
    · intro typedOp hsel
      simp [BinaryOperationImpl, Bind.bind, Except.bind, Value.IsDefined, Value.IsConstant,
        EnsureEmittable, TypeCompatible, Value.GetLayout, pure, Except.pure, hsel,
        emittedOperator]

/-- C7.  On the emitted (non-constant-folded) path of `BinaryOperation`:
a modulus whose operands are floating point fails with `invalidArgument`;
modulus on integer operands is emitted with the signed modulo opcode
(`moduloSigned`); and division selects the signed integer division opcode
for non-floating-point operands and the float division opcode for
floating-point operands. -/
theorem C7_binary_operation_signed_semantics
    (st : ContextState) (destination source : Value)
    (handle off : Nat) (contents : List Int)
    (hd : destination.data = .emittable handle off contents)
    (hsd : source.IsDefined = true)
    (htc : TypeCompatible destination source = true)
    (hlay : destination.GetLayout = source.GetLayout)
    (hnb : ¬(source.IsConstant = true ∧ source.baseType = ValueType.Boolean)) :
    (isFloatingPointType destination.baseType = true →
      BinaryOperationImpl st .modulus destination source = .error .inputInvalidArgument) ∧
    (isFloatingPointType destination.baseType = false →
      emittedOperator (BinaryOperationImpl st .modulus destination source) =
        some .moduloSigned) ∧
    emittedOperator (BinaryOperationImpl st .divide destination source) =
      some (if isFloatingPointType destination.baseType then .divideFloat
            else .divideSigned) := by
  have hpath := fun opArg => BinaryOperationImpl_emitted_path st opArg destination source
    handle off contents hd hsd htc hlay hnb
  have hfps : destination.IsFloatingPointOrPointer = isFloatingPointType destination.baseType :=
    rfl
  refine ⟨?_, ?_, ?_⟩
  · intro hfp
    exact (hpath .modulus).1 .inputInvalidArgument
      (by rw [selectBinaryOperator, hfps, hfp]; rfl)
  · intro hfp
    exact (hpath .modulus).2 .moduloSigned
      (by rw [selectBinaryOperator, hfps, hfp]; rfl)
  · exact (hpath .divide).2 _ (by rw [selectBinaryOperator, hfps])

/-- Witness for C7: with `[2]`-shaped emittable operands, `modulus` on
`Double` operands is rejected, `modulus` on `Int32` operands emits
`moduloSigned`, and `divide` emits `divideSigned` on `Int32` and
`divideFloat` on `Double`. -/
theorem C7_binary_operation_signed_semantics_witness :
    BinaryOperationImpl (initialContext testModuleName) .modulus
        { baseType := .Double, pointerLevel := 1, layout := ⟨[2]⟩, constrained := true,
          data := .emittable 3 0 [1, 2] }
        { baseType := .Double, pointerLevel := 1, layout := ⟨[2]⟩, constrained := true,
          data := .emittable 4 0 [5, 6] } = .error .inputInvalidArgument ∧
    emittedOperator (BinaryOperationImpl (initialContext testModuleName) .modulus
        { baseType := .Int32, pointerLevel := 1, layout := ⟨[2]⟩, constrained := true,
          data := .emittable 3 0 [1, 2] }
        { baseType := .Int32, pointerLevel := 1, layout := ⟨[2]⟩, constrained := true,
          data := .emittable 4 0 [5, 6] }) = some .moduloSigned ∧
    emittedOperator (BinaryOperationImpl (initialContext testModuleName) .divide
        { baseType := .Int32, pointerLevel := 1, layout := ⟨[2]⟩, constrained := true,
          data := .emittable 3 0 [1, 2] }
        { baseType := .Int32, pointerLevel := 1, layout := ⟨[2]⟩, constrained := true,
          data := .emittable 4 0 [5, 6] }) = some .divideSigned ∧
    emittedOperator (BinaryOperationImpl (initialContext testModuleName) .divide
        { baseType := .Double, pointerLevel := 1, layout := ⟨[2]⟩, constrained := true,
          data := .emittable 3 0 [1, 2] }
        { baseType := .Double, pointerLevel := 1, layout := ⟨[2]⟩, constrained := true,
          data := .emittable 4 0 [5, 6] }) = some .divideFloat := by
  have hD := C7_binary_operation_signed_semantics (initialContext testModuleName)
    { baseType := .Double, pointerLevel := 1, layout := ⟨[2]⟩, constrained := true,
      data := .emittable 3 0 [1, 2] }
    { baseType := .Double, pointerLevel := 1, layout := ⟨[2]⟩, constrained := true,
      data := .emittable 4 0 [5, 6] } 3 0 [1, 2] rfl rfl (by decide) rfl (by simp [Value.IsConstant])
  have hI := C7_binary_operation_signed_semantics (initialContext testModuleName)
    { baseType := .Int32, pointerLevel := 1, layout := ⟨[2]⟩, constrained := true,
      data := .emittable 3 0 [1, 2] }
    { baseType := .Int32, pointerLevel := 1, layout := ⟨[2]⟩, constrained := true,
      data := .emittable 4 0 [5, 6] } 3 0 [1, 2] rfl rfl (by decide) rfl (by simp [Value.IsConstant])
  exact ⟨hD.1 rfl, hI.2.1 rfl, hI.2.2, hD.2.2⟩

/-- C8.  For every built-in intrinsic call on the non-constant-folded path:
any argument of Boolean base type makes the call fail with a type-mismatch
error (simple numerical intrinsics, pow, and both arities of max/min);
arguments of Float base type make the lowering fetch the float variant of
the runtime math function, while every other non-boolean base type reaches
the runtime call at type double (cast to double unless already floating
point); and a pow call whose exponent is constrained to a layout other than
the scalar layout fails with an invalid-size error. -/
theorem C8_intrinsic_type_rules :
    (∀ (mf : FloatWidth → Int → Int) (st : ContextState) (v : Value),
      v.baseType = .Boolean →
      SimpleNumericalFunctionIntrinsic mf st [v] = .error .inputTypeMismatch) ∧
    (∀ (pf : FloatWidth → Int → Int → Int) (st : ContextState) (v1 v2 : Value),
      v1.baseType = .Boolean ∨ v2.baseType = .Boolean →
      PowFunctionIntrinsic pf st [v1, v2] = .error .inputTypeMismatch) ∧
    (∀ (i : MaxMinIntrinsic) (st : ContextState) (v : Value),
      v.baseType = .Boolean →
      MaxMinIntrinsicFunction i st [v] = .error .inputTypeMismatch) ∧
    (∀ (i : MaxMinIntrinsic) (st : ContextState) (v1 v2 : Value),
      v1.baseType = .Boolean ∨ v2.baseType = .Boolean →
      MaxMinIntrinsicFunction i st [v1, v2] = .error .inputTypeMismatch) ∧
    (∀ (mf : FloatWidth → Int → Int) (st : ContextState) (v : Value),
      v.baseType ≠ .Boolean →
      ∃ st' e, SimpleNumericalFunctionIntrinsic mf st [v] = .ok (st', e) ∧
        (v.baseType = .Float → IntrinsicEmission.variant e = .float) ∧
        (v.baseType ≠ .Float → IntrinsicEmission.variant e = .double ∧
          IntrinsicEmission.argArrivals e = [.Double])) ∧
    (∀ (pf : FloatWidth → Int → Int → Int) (st : ContextState) (v1 v2 : Value),
      v1.baseType = v2.baseType → v1.baseType ≠ .Boolean →
      v2.IsConstrained = true → v2.GetLayout ≠ ScalarLayout →
      PowFunctionIntrinsic pf st [v1, v2] = .error .inputInvalidSize) := by
  refine ⟨?_, ?_, ?_, ?_, ?_, ?_⟩
  · intro mf st v h
    simp [SimpleNumericalFunctionIntrinsic, h]
  · intro pf st v1 v2 h
    by_cases heq : v1.baseType = v2.baseType
    · have hb2 : v2.baseType = .Boolean := by
        cases h with
        | inl h1 => exact heq ▸ h1
        | inr h2 => exact h2
      simp [PowFunctionIntrinsic, heq, hb2]
    · simp [PowFunctionIntrinsic, heq]
  · intro i st v h
    simp [MaxMinIntrinsicFunction, h]
  · intro i st v1 v2 h
    by_cases heq : v1.baseType = v2.baseType
    · have hb2 : v2.baseType = .Boolean := by
        cases h with
        | inl h1 => exact heq ▸ h1
        | inr h2 => exact h2
      simp [MaxMinIntrinsicFunction, heq, hb2]
    · simp [MaxMinIntrinsicFunction, heq]
  · intro mf st v hnb
    obtain ⟨bt, pl, lay, con, dat⟩ := v
    simp only at hnb ⊢
    cases bt
    all_goals first
      | exact absurd rfl hnb
      | exact ⟨_, _, rfl, fun _ => rfl, fun h => absurd rfl h⟩
      | exact ⟨_, _, rfl, fun h => absurd h (by decide), fun _ => ⟨rfl, rfl⟩⟩
  · intro pf st v1 v2 heq hnb hcon hnlay
    simp [PowFunctionIntrinsic, heq, hnb, hcon, hnlay]
    exact heq ▸ hnb

/-- Witness for C8: a Boolean argument is rejected by the simple lowering,
pow and max/min; a Float argument selects the float runtime variant; an
Int32 argument arrives as double at the double variant; and pow with a
`[2]`-shaped exponent is rejected with invalid size. -/
theorem C8_intrinsic_type_rules_witness :
    SimpleNumericalFunctionIntrinsic (fun _ x => x) (initialContext testModuleName)
        [{ baseType := .Boolean, pointerLevel := 1, layout := ⟨[2]⟩, constrained := true,
           data := .emittable 3 0 [0, 1] }] = .error .inputTypeMismatch ∧
    MaxMinIntrinsicFunction .Max (initialContext testModuleName)
        [{ baseType := .Boolean, pointerLevel := 1, layout := ⟨[2]⟩, constrained := true,
           data := .emittable 3 0 [0, 1] }] = .error .inputTypeMismatch ∧
    (∃ st' e, SimpleNumericalFunctionIntrinsic (fun _ x => x) (initialContext testModuleName)
        [{ baseType := .Float, pointerLevel := 1, layout := ⟨[2]⟩, constrained := true,
           data := .emittable 3 0 [1, 2] }] = .ok (st', e) ∧
      IntrinsicEmission.variant e = .float) ∧
    (∃ st' e, SimpleNumericalFunctionIntrinsic (fun _ x => x) (initialContext testModuleName)
        [{ baseType := .Int32, pointerLevel := 1, layout := ⟨[2]⟩, constrained := true,
           data := .emittable 3 0 [1, 2] }] = .ok (st', e) ∧
      IntrinsicEmission.variant e = .double ∧
      IntrinsicEmission.argArrivals e = [.Double]) ∧
    PowFunctionIntrinsic (fun _ a _ => a) (initialContext testModuleName)
        [{ baseType := .Int32, pointerLevel := 1, layout := ⟨[1]⟩, constrained := true,
           data := .emittable 3 0 [2] },
         { baseType := .Int32, pointerLevel := 1, layout := ⟨[2]⟩, constrained := true,
           data := .emittable 4 0 [2, 3] }] = .error .inputInvalidSize := by
  refine ⟨?_, ?_, ?_, ?_, ?_⟩
  · exact C8_intrinsic_type_rules.1 (fun _ x => x) (initialContext testModuleName)
      { baseType := .Boolean, pointerLevel := 1, layout := ⟨[2]⟩, constrained := true,
        data := .emittable 3 0 [0, 1] } rfl
  · exact C8_intrinsic_type_rules.2.2.1 .Max (initialContext testModuleName)
      { baseType := .Boolean, pointerLevel := 1, layout := ⟨[2]⟩, constrained := true,
        data := .emittable 3 0 [0, 1] } rfl
  · obtain ⟨st', e, hok, hf, _⟩ := C8_intrinsic_type_rules.2.2.2.2.1
      (fun _ x => x) (initialContext testModuleName)
      { baseType := .Float, pointerLevel := 1, layout := ⟨[2]⟩, constrained := true,
        data := .emittable 3 0 [1, 2] } (by decide)
    exact ⟨st', e, hok, hf rfl⟩
  · obtain ⟨st', e, hok, _, hd⟩ := C8_intrinsic_type_rules.2.2.2.2.1
      (fun _ x => x) (initialContext testModuleName)
      { baseType := .Int32, pointerLevel := 1, layout := ⟨[2]⟩, constrained := true,
        data := .emittable 3 0 [1, 2] } (by decide)
    exact ⟨st', e, hok, hd (by decide)⟩
  · exact C8_intrinsic_type_rules.2.2.2.2.2 (fun _ a _ => a) (initialContext testModuleName)
      { baseType := .Int32, pointerLevel := 1, layout := ⟨[1]⟩, constrained := true,
        data := .emittable 3 0 [2] }
      { baseType := .Int32, pointerLevel := 1, layout := ⟨[2]⟩, constrained := true,
        data := .emittable 4 0 [2, 3] } rfl (by decide) rfl (by decide)

/-- C4 (code bug).  The claim (and spec §4.1/§9) require `CopyData`/`MoveData`
with a non-constant destination to fail with a type-mismatch error unless the
base types agree AND the destination's pointer level equals the source's or
exceeds it by one.  The source's guard instead reads
`!TypeCompatible(destination, source) && (dst.PL == src.PL || dst.PL == 1 + src.PL)`,
i.e. it throws only when the base types differ AND the pointer-level delta is
0 or 1.  Evaluated here: (1) same base type `Int32` with pointer levels 2 vs 0
(delta two) is NOT rejected — the copy is emitted; (2) differing base types
`Double` vs `Int32` at delta two are NOT rejected either; (3) only differing
base types at an allowed delta (here 0) are rejected.  The claim requires (1)
and (2) to fail with `typeMismatch` before anything is emitted. -/
theorem C4_copy_pointer_level_gap_not_rejected :
    CopyDataImpl
        { baseType := .Int32, pointerLevel := 0, layout := ⟨[2]⟩, constrained := true,
          data := .constant ⟨7, [10, 20]⟩ 0 }
        { baseType := .Int32, pointerLevel := 2, layout := ⟨[2]⟩, constrained := true,
          data := .emittable 3 0 [0, 0] } =
      .ok { baseType := .Int32, pointerLevel := 2, layout := ⟨[2]⟩, constrained := true,
            data := .emittable 3 0 [10, 20] } ∧
    CopyDataImpl
        { baseType := .Int32, pointerLevel := 0, layout := ⟨[2]⟩, constrained := true,
          data := .constant ⟨7, [10, 20]⟩ 0 }
        { baseType := .Double, pointerLevel := 2, layout := ⟨[2]⟩, constrained := true,
          data := .emittable 3 0 [0, 0] } =
      .ok { baseType := .Double, pointerLevel := 2, layout := ⟨[2]⟩, constrained := true,
            data := .emittable 3 0 [10, 20] } ∧
    CopyDataImpl
        { baseType := .Int32, pointerLevel := 0, layout := ⟨[2]⟩, constrained := true,
          data := .constant ⟨7, [10, 20]⟩ 0 }
        { baseType := .Double, pointerLevel := 0, layout := ⟨[2]⟩, constrained := true,
          data := .emittable 3 0 [0, 0] } =
      .error .inputTypeMismatch := by
  refine ⟨rfl, rfl, rfl⟩
